import Mathlib

/-!
RVnizer: account settings application (app.js, app.model.js, app.ui.js)

A shallow embedding of the three JavaScript modules.  The platform (the Tizen
account and application services, the TAU page engine, `window.alert`,
`window.confirm`) is external to the repository: its calls are recorded in a
trace and their outcomes are supplied by a `Platform` record.  Callbacks are
defunctionalised, and callbacks that the platform delivers asynchronously are
queued as tasks that run after the synchronous block that issued them.
-/

namespace RVnizer

/-! ## Values -/

/-- A JavaScript error object; `message` is the only property the code reads. -/
structure JsError where
  name : String
  message : String
deriving DecidableEq, Repr

/-- The argument handed to an error callback: an error object, or a bare string
(`updateAccountData` passes `error.message`). -/
inductive ErrArg
  | error (e : JsError)
  | text (s : String)
deriving DecidableEq, Repr

/-- One entry of an account's extended data, as `getExtendedData` delivers it. -/
structure KV where
  key : String
  value : String
deriving DecidableEq, Repr

/-- The account object: `id` is null until the platform has stored the account. -/
structure Account where
  id : Option Nat
  userName : String
deriving DecidableEq, Repr

/-- The account provider object returned by `tizen.account.getProvider`. -/
structure Provider where
  applicationId : String
deriving DecidableEq, Repr

/-- The values that reach an account parameter: `undefined` (`accounts[0]` of an
empty list), an account id (the argument of `onremoved`), or an account. -/
inductive Value
  | undefined
  | accountId (n : Nat)
  | account (a : Account)
deriving DecidableEq, Repr

/-- The values `isInfoViewOpened` can return: `a && b` yields `a` itself when
`a` is falsy, so the null active page is returned as it is. -/
inductive JsVal
  | null
  | bool (b : Bool)
deriving DecidableEq, Repr

/-- JavaScript truthiness of the values above. -/
@[simp]
def JsVal.truthy : JsVal → Bool
  | .null => false
  | .bool b => b

/-- The patch object given to `updateAccountData`: `user` and `extData` may be
absent; `extData` lists its own properties in enumeration order. -/
structure Patch where
  user : Option String
  extData : Option (List (String × String))
deriving DecidableEq, Repr

/-- The outcome of a platform call that reports through callbacks: it throws at
once, or later calls the error callback, or later calls the success callback. -/
inductive Async (α : Type)
  | throws (e : JsError)
  | fails (e : JsError)
  | succeeds (a : α)
deriving DecidableEq, Repr

/-- The outcomes of the platform calls the application makes. -/
structure Platform where
  /-- Outcome of `tizen.application.getCurrentApplication().exit()`. -/
  appExit : Except JsError Unit
  /-- Outcome of `tizen.application.getCurrentApplication().appInfo.id`. -/
  appId : Except JsError String
  /-- Outcome of `...getRequestedAppControl().appControl.operation`. -/
  operation : Except JsError (Option String)
  /-- Outcome of `tizen.account.getProvider(applicationId)`. -/
  getProvider : Option String → Except JsError (Option Provider)
  /-- Outcome of `new tizen.Account(provider, (userName))`. -/
  newAccount : Option Provider → String → Except JsError Account
  /-- Outcome of `tizen.account.add(account)`: the id given to the account. -/
  add : Account → Except JsError Nat
  /-- Outcome of `account.setExtendedData(key, value)`. -/
  setExtendedData : Account → String → String → Except JsError Unit
  /-- Outcome of `tizen.account.remove(accountId)`. -/
  remove : Option Nat → Except JsError Unit
  /-- Outcome of `tizen.account.update(account)`. -/
  update : Value → Except JsError Unit
  /-- Outcome of `tizen.account.getAccounts(onSuccess, onError, applicationId)`. -/
  getAccounts : Option String → Async (List Account)
  /-- Outcome of `account.getExtendedData(onSuccess, onError)`. -/
  getExtendedData : Account → Async (List KV)
  /-- Outcome of `tizen.account.addAccountListener(handlers)`. -/
  addAccountListener : Except JsError Unit

/-! ## Defunctionalised callbacks -/

/-- The functions the coordinator registers in the model's listener table. -/
inductive Callback
  | exit
  | onUpdated
  | showAddView
deriving DecidableEq, Repr

/-- The error callbacks passed to the model: `app.ui.showError`, or nothing
(`doRemoveAccount` calls `removeAccount` with one argument). -/
inductive ErrCb
  | showError
  | undefined
deriving DecidableEq, Repr

/-- The success callbacks given to `getCurrentAccount`. -/
inductive AccountsCb
  | remove
  | update (data : Patch) (onError : ErrCb)
  | initConfigure
  | initDefault
deriving DecidableEq, Repr

/-- The success callbacks given to `getAccountData`. -/
inductive DataCb
  | showEditView
  | showInfoView
deriving DecidableEq, Repr

/-- A callback the platform has been asked to deliver. -/
inductive Task
  | accountsReady (cb : AccountsCb) (accounts : List Account)
  | extDataReady (account : Account) (cb : DataCb) (extData : List KV)
  | failed (cb : ErrCb) (e : JsError)
deriving DecidableEq, Repr

/-- The handlers the view controller attaches to DOM elements. -/
inductive UiHandler
  | onTizenHWKey
  | onAddButtonClick
  | onRemoveButtonClick
  | onUpdateButtonClick
deriving DecidableEq, Repr

/-- One `addEventListener` registration on a DOM node. -/
structure DomBinding where
  target : String
  event : String
  handler : UiHandler
deriving DecidableEq, Repr

/-- Invocations of the model adapter's public operations. -/
inductive ModelCall
  | init
  | getAppcontrolOperation
  | addAccount (userName : String) (data : List (String × String))
  | removeAccount (accountId : Option Nat)
  | updateAccountData (data : Patch)
  | getAccountData (account : Value)
  | getCurrentAccount
deriving DecidableEq, Repr

/-- Observable events, in the order they happen. -/
inductive Event
  | alert (text : String)
  | confirm (text : String) (answer : Bool)
  | consoleError (v : ErrArg)
  | changePage (selector : String)
  | appExit
  | add (a : Account)
  | setExtendedData (a : Account) (key value : String)
  | remove (accountId : Option Nat)
  | update (a : Value)
  | getAccounts (applicationId : Option String)
  | getExtendedData (a : Account)
  | addAccountListener
  | call (c : ModelCall)
  | uncaught (e : JsError)
deriving DecidableEq, Repr

/-! ## The listener table (app.model.js, lines 46-55 and 242-260) -/

/-- The object `eventListeners`: a property that is null or missing reads as
`none` (both are falsy, which is all `triggerListener` tests). -/
abbrev Listeners (κ : Type) := String → Option κ

/-- The initial table `(added: null, removed: null, updated: null)`. -/
def noListeners {κ : Type} : Listeners κ := fun _ => none

/-- The function `app.model.addEventListener`: `eventListeners[name] = callback`. -/
def addEventListener {κ : Type} (name : String) (callback : κ)
    (t : Listeners κ) : Listeners κ :=
  fun k => if k = name then some callback else t k

/-- The function `triggerListener`: the calls it makes, each a callback with its argument. -/
def triggerListener {κ π : Type} (t : Listeners κ) (name : String) (param : π) :
    List (κ × π) :=
  match t name with
  | none => []
  | some callback => [(callback, param)]

/-- A notification from the platform's account service. -/
inductive Notification
  | added (a : Account)
  | removed (accountId : Nat)
  | updated (a : Account)
deriving DecidableEq, Repr

/-- The handlers object registered by `app.model.init`: the calls that a
notification leads to. -/
def accountListener {κ : Type} (t : Listeners κ) : Notification → List (κ × Value)
  | .added a => triggerListener t "added" (Value.account a)
  | .removed i => triggerListener t "removed" (Value.accountId i)
  | .updated a => triggerListener t "updated" (Value.account a)

/-- The property name a notification is delivered under. -/
def Notification.eventName : Notification → String
  | .added _ => "added"
  | .removed _ => "removed"
  | .updated _ => "updated"

/-- The argument a notification carries. -/
def Notification.param : Notification → Value
  | .added a => Value.account a
  | .removed i => Value.accountId i
  | .updated a => Value.account a

/-! ## Program state -/

/-- The form fields and display elements named in the DOM contract. -/
structure Dom where
  addUsr : String
  addData : String
  editData : String
  login : String
  dataHtml : String
deriving DecidableEq, Repr

/-- Everything the application can read or change. -/
structure World where
  eventListeners : Listeners Callback
  activePage : Option String
  dom : Dom
  bindings : List DomBinding
  listening : Bool
  pending : List Task
  trace : List Event

/-- The result of running a block of code: it completes or throws. -/
inductive Outcome (α : Type)
  | ok (a : α) (w : World)
  | throw (e : JsError) (w : World)

/-- The world a block leaves behind. -/
@[simp]
def Outcome.world {α : Type} : Outcome α → World
  | .ok _ w => w
  | .throw _ w => w

/-- The error a block throws, if it throws. -/
@[simp]
def Outcome.thrown {α : Type} : Outcome α → Option JsError
  | .ok _ _ => none
  | .throw e _ => some e

/-- A block of JavaScript code. -/
def JS (α : Type) : Type := World → Outcome α

/-- Sequencing: a throw skips the rest. -/
@[simp]
def JS.bind {α β : Type} (m : JS α) (f : α → JS β) : JS β :=
  fun w => match m w with
    | .ok a w1 => f a w1
    | .throw e w1 => .throw e w1

instance : Monad JS where
  pure a := fun w => .ok a w
  bind := JS.bind

/-- The statement `throw e`. -/
@[simp]
def throwJs {α : Type} (e : JsError) : JS α := fun w => .throw e w

/-- The statement `try body catch (error) handler`. -/
@[simp]
def tryCatch {α : Type} (body : JS α) (handler : JsError → JS α) : JS α :=
  fun w => match body w with
    | .ok a w1 => .ok a w1
    | .throw e w1 => handler e w1

/-- Record an event. -/
@[simp]
def emit (ev : Event) : JS Unit :=
  fun w => .ok () { w with trace := w.trace ++ [ev] }

/-- A synchronous platform call: record it and return or throw its outcome. -/
@[simp]
def platformCall {α : Type} (ev : Event) (r : Except JsError α) : JS α :=
  fun w => match r with
    | .ok a => .ok a { w with trace := w.trace ++ [ev] }
    | .error e => .throw e { w with trace := w.trace ++ [ev] }

/-- Queue a callback for delivery after the current block. -/
@[simp]
def enqueue (t : Task) : JS Unit :=
  fun w => .ok () { w with pending := w.pending ++ [t] }

/-- Change the DOM. -/
@[simp]
def modifyDom (f : Dom → Dom) : JS Unit :=
  fun w => .ok () { w with dom := f w.dom }

/-- The TypeError raised by reading a property of `undefined`, by calling a
value that is not a function, and the like. -/
def typeError (what : String) : JsError := ⟨"TypeError", what⟩

/-- A platform read that leaves no trace: return or throw its outcome. -/
@[simp]
def platformRead {α : Type} (r : Except JsError α) : JS α :=
  fun w => match r with
    | .ok a => .ok a w
    | .error e => .throw e w

/-! ## app.ui.js -/

namespace Ui

/-- White space and line terminators, the characters `String.prototype.trim`
strips. -/
def isJsWhiteSpace (c : Char) : Bool :=
  decide (c.toNat ∈ [0x9, 0xA, 0xB, 0xC, 0xD, 0x20, 0xA0, 0x1680, 0x2028, 0x2029,
    0x202F, 0x205F, 0x3000, 0xFEFF]) || (decide (0x2000 ≤ c.toNat) && decide (c.toNat ≤ 0x200A))

/-- The method `String.prototype.trim`. -/
def trim (s : String) : String :=
  ⟨((s.data.dropWhile isJsWhiteSpace).reverse.dropWhile isJsWhiteSpace).reverse⟩

/-- Modelled from the spec: the page markup is not among the sources; by the DOM
contract of the spec the input elements are the add form's user-name and data
fields and the edit form's data field.  `cleanInputs` empties every input. -/
@[simp]
def cleanInputs : JS Unit :=
  modifyDom fun d => { d with addUsr := "", addData := "", editData := "" }

/-- The id of the page a selector such as `#add-account-view` names. -/
@[simp]
def pageOfSelector (selector : String) : String :=
  match selector.data with
  | '#' :: rest => ⟨rest⟩
  | _ => selector

/-- The call `tau.changePage(selector, ...)` of the page engine: the page named
by the selector becomes the active page. -/
@[simp]
def changePage (selector : String) : JS Unit :=
  fun w => .ok () { w with
    activePage := some (pageOfSelector selector)
    trace := w.trace ++ [Event.changePage selector] }

/-- The object `(name: account.userName, data: extData)` built by
`getAccountData`. -/
structure AccountData where
  name : String
  data : List KV
deriving DecidableEq, Repr

/-- The function `app.ui.showAddView`. -/
@[simp]
def showAddView : JS Unit := do
  cleanInputs
  changePage "#add-account-view"

/-- The function `app.ui.showEditView`: `account.data[0].key` throws when `data` is empty. -/
@[simp]
def showEditView (account : AccountData) : JS Unit :=
  match account.data.head? with
  | none => throwJs (typeError "Cannot read property key of undefined")
  | some first => do
      if first.key = "data" then
        modifyDom fun d => { d with editData := first.value }
      changePage "#edit-account-view"

/-- The markup `showInfoView` builds from the extended data. -/
def dataHTML (extData : List KV) : String :=
  extData.foldl (fun html kv => html ++ ("<p>" ++ kv.key ++ ": " ++ kv.value ++ "</p>")) ""

/-- The function `app.ui.showInfoView`. -/
@[simp]
def showInfoView (account : AccountData) : JS Unit := do
  modifyDom fun d => { d with login := account.name }
  modifyDom fun d => { d with dataHtml := dataHTML account.data }
  changePage "#info-account-view"

/-- The function `app.ui.isInfoViewOpened`:
`activePage && activePage.id === "info-account-view"`. -/
@[simp]
def isInfoViewOpened : JS JsVal :=
  fun w => match w.activePage with
    | none => .ok JsVal.null w
    | some pageId => .ok (JsVal.bool (decide (pageId = "info-account-view"))) w

/-- What `window.alert(error.message)` displays: a string has no `message`
property, and `alert` renders `undefined` as the text "undefined". -/
@[simp]
def alertText : ErrArg → String
  | .error e => e.message
  | .text _ => "undefined"

/-- The function `app.ui.showError`. -/
@[simp]
def showError (error : ErrArg) : JS Unit := do
  emit (Event.alert (alertText error))
  emit (Event.consoleError error)

/-- Attach a handler to a DOM node. -/
@[simp]
def domAddEventListener (target event : String) (handler : UiHandler) : JS Unit :=
  fun w => .ok () { w with bindings := w.bindings ++ [⟨target, event, handler⟩] }

/-- The function `app.ui.bindAddViewEvents`. -/
@[simp]
def bindAddViewEvents : JS Unit := do
  domAddEventListener "document" "tizenhwkey" UiHandler.onTizenHWKey
  domAddEventListener "save-button" "click" UiHandler.onAddButtonClick

/-- The function `app.ui.bindConfigViewEvents`. -/
@[simp]
def bindConfigViewEvents : JS Unit := do
  domAddEventListener "document" "tizenhwkey" UiHandler.onTizenHWKey
  domAddEventListener "edit-save-button" "click" UiHandler.onUpdateButtonClick
  domAddEventListener "edit-remove-button" "click" UiHandler.onRemoveButtonClick

/-- The function `app.ui.bindInfoViewEvents`. -/
@[simp]
def bindInfoViewEvents : JS Unit := do
  domAddEventListener "document" "tizenhwkey" UiHandler.onTizenHWKey
  domAddEventListener "remove-button" "click" UiHandler.onRemoveButtonClick
  domAddEventListener "save-button" "click" UiHandler.onAddButtonClick

end Ui

/-! ## app.model.js -/

namespace Model

variable (P : Platform)

/-- Call an error callback; calling `undefined` is a TypeError. -/
@[simp]
def callErr (onError : ErrCb) (v : ErrArg) : JS Unit :=
  match onError with
  | .showError => Ui.showError v
  | .undefined => throwJs (typeError "onError is not a function")

/-- The function `getApplicationId`. -/
def getApplicationId (onError : ErrCb) : JS (Option String) :=
  tryCatch
    (do let i ← platformRead P.appId
        pure (some i))
    (fun error => do
        callErr onError (ErrArg.error error)
        pure none)

/-- The function `app.model.getAppcontrolOperation`. -/
def getAppcontrolOperation (onError : ErrCb) : JS (Option String) := do
  emit (Event.call ModelCall.getAppcontrolOperation)
  tryCatch
    (platformRead P.operation)
    (fun error => do
        callErr onError (ErrArg.error error)
        pure none)

/-- The function `getAccountProvider`. -/
def getAccountProvider (onError : ErrCb) : JS (Option Provider) :=
  tryCatch
    (do let i ← getApplicationId P onError
        platformRead (P.getProvider i))
    (fun error => do
        callErr onError (ErrArg.error error)
        pure none)

/-- Whether the object has an own property named `hasOwnProperty`.  It then
shadows `Object.prototype.hasOwnProperty`, and the property values here being
strings, the guard call `data.hasOwnProperty(key)` is a TypeError. -/
@[simp]
def shadowsGuard (data : List (String × String)) : Bool :=
  data.any fun kv => decide (kv.1 = "hasOwnProperty")

/-- The iterations of the loop below over the keys still to visit; `data` is the
whole object, on which the guard is called in every iteration.  The keys listed
are the object's own ones, for which the guard, when it can be called, holds. -/
@[simp]
def setEach (account : Account) (data : List (String × String)) :
    List (String × String) → JS Unit
  | [] => pure ()
  | (key, value) :: rest =>
      if shadowsGuard data then
        throwJs (typeError "data.hasOwnProperty is not a function")
      else do
        platformCall (Event.setExtendedData account key value)
          (P.setExtendedData account key value)
        setEach account data rest

/-- The loop `for (key in data) if (data.hasOwnProperty(key))
account.setExtendedData(key, data[key])`. -/
@[simp]
def setAll (account : Account) (data : List (String × String)) : JS Unit :=
  setEach P account data data

/-- The function `app.model.addAccount`. -/
@[simp]
def addAccount (userName : String) (data : List (String × String))
    (onError : ErrCb) : JS Unit := do
  emit (Event.call (ModelCall.addAccount userName data))
  let provider ← getAccountProvider P onError
  let account ← platformRead (P.newAccount provider userName)
  tryCatch
    (do let i ← platformCall (Event.add account) (P.add account)
        setAll P { account with id := some i } data)
    (fun error => callErr onError (ErrArg.error error))

/-- The function `app.model.removeAccount`. -/
@[simp]
def removeAccount (accountId : Option Nat) (onError : ErrCb) : JS Unit := do
  emit (Event.call (ModelCall.removeAccount accountId))
  tryCatch
    (platformCall (Event.remove accountId) (P.remove accountId))
    (fun error => callErr onError (ErrArg.error error))

/-- The function `app.model.getCurrentAccount`: the platform delivers the result later. -/
@[simp]
def getCurrentAccount (onSuccess : AccountsCb) (onError : ErrCb) : JS Unit := do
  emit (Event.call ModelCall.getCurrentAccount)
  tryCatch
    (do let i ← getApplicationId P onError
        emit (Event.getAccounts i)
        match P.getAccounts i with
        | .throws e => throwJs e
        | .fails e => enqueue (Task.failed onError e)
        | .succeeds accounts => enqueue (Task.accountsReady onSuccess accounts))
    (fun error => callErr onError (ErrArg.error error))

/-- The function `app.model.getAccountData`: `account.getExtendedData` is a TypeError unless
`account` is an account object; the platform delivers the result later. -/
@[simp]
def getAccountData (account : Value) (onSuccess : DataCb) (onError : ErrCb) :
    JS Unit := do
  emit (Event.call (ModelCall.getAccountData account))
  match account with
  | .account a => do
      emit (Event.getExtendedData a)
      match P.getExtendedData a with
      | .throws e => throwJs e
      | .fails e => enqueue (Task.failed onError e)
      | .succeeds extData => enqueue (Task.extDataReady a onSuccess extData)
  | _ => throwJs (typeError "account.getExtendedData is not a function")

/-- The expression `accounts[0]`. -/
@[simp]
def first (accounts : List Account) : Value :=
  match accounts.head? with
  | some a => Value.account a
  | none => Value.undefined

/-- The callback `onSuccess` inside `app.model.updateAccountData`. -/
@[simp]
def onSuccess (data : Patch) (onError : ErrCb) (accounts : List Account) :
    JS Unit := do
  let account ← (match data.user with
    | some user =>
        if user ≠ "" then
          match accounts.head? with
          | some a => pure (some { a with userName := user })
          | none => throwJs (typeError "Cannot set property userName of undefined")
        else pure accounts.head?
    | none => pure accounts.head? : JS (Option Account))
  match data.extData with
  | some extData =>
      match account with
      | some a => setAll P a extData
      | none =>
          if extData = [] then pure ()
          else throwJs (typeError "Cannot read property setExtendedData of undefined")
  | none => pure ()
  let arg := match account with
    | some a => Value.account a
    | none => Value.undefined
  tryCatch
    (platformCall (Event.update arg) (P.update arg))
    (fun error => callErr onError (ErrArg.text error.message))

/-- The function `app.model.updateAccountData`. -/
@[simp]
def updateAccountData (data : Patch) (onError : ErrCb) : JS Unit := do
  emit (Event.call (ModelCall.updateAccountData data))
  getCurrentAccount P (AccountsCb.update data onError) onError

/-- The function `app.model.addEventListener`, on the table the program holds. -/
@[simp]
def addEventListener (name : String) (callback : Callback) : JS Unit :=
  fun w => .ok () { w with
    eventListeners := RVnizer.addEventListener name callback w.eventListeners }

/-- The function `app.model.init`: on success the platform holds the handlers object. -/
def init (onError : ErrCb) : JS Unit := do
  emit (Event.call ModelCall.init)
  tryCatch
    (do platformCall Event.addAccountListener P.addAccountListener
        fun w => .ok () { w with listening := true })
    (fun error => callErr onError (ErrArg.error error))

end Model

/-! ## app.js and the handlers of app.ui.js that call into it -/

/-- The launch operation of "add account". -/
def operationAdd : String := "http://tizen.org/appcontrol/operation/account/add"

/-- The launch operation of "configure account". -/
def operationConfigure : String :=
  "http://tizen.org/appcontrol/operation/account/configure"

namespace App

variable (P : Platform)

/-- The function `app.exit`. -/
@[simp]
def exit : JS Unit :=
  tryCatch
    (platformCall Event.appExit P.appExit)
    (fun error => Ui.showError (ErrArg.error error))

/-- The function `app.doAddAccount`. -/
@[simp]
def doAddAccount (userName : String) (data : List (String × String)) : JS Unit :=
  Model.addAccount P userName data ErrCb.showError

/-- The function `app.doRemoveAccount`. -/
@[simp]
def doRemoveAccount : JS Unit :=
  Model.getCurrentAccount P AccountsCb.remove ErrCb.showError

/-- The callback `remove` inside `app.doRemoveAccount`: `removeAccount` is
called with the account id alone. -/
@[simp]
def remove (accounts : List Account) : JS Unit :=
  match accounts.head? with
  | some a => Model.removeAccount P a.id ErrCb.undefined
  | none => pure ()

/-- The function `app.doUpdateAccount`. -/
@[simp]
def doUpdateAccount (data : String) : JS Unit :=
  Model.updateAccountData P ⟨none, some [("data", data)]⟩ ErrCb.showError

/-- The function `app.bindAddViewEvents`. -/
@[simp]
def bindAddViewEvents : JS Unit := do
  Ui.bindAddViewEvents
  Model.addEventListener "updated" Callback.exit

/-- The function `app.bindConfigViewEvents`. -/
@[simp]
def bindConfigViewEvents : JS Unit := do
  Ui.bindConfigViewEvents
  Model.addEventListener "updated" Callback.exit
  Model.addEventListener "removed" Callback.exit

/-- The function `app.bindInfoViewEvents`. -/
@[simp]
def bindInfoViewEvents : JS Unit := do
  Ui.bindInfoViewEvents
  Model.addEventListener "updated" Callback.onUpdated
  Model.addEventListener "removed" Callback.showAddView

/-- The listener `onUpdated` inside `app.bindInfoViewEvents`. -/
@[simp]
def onUpdated (account : Value) : JS Unit := do
  let opened ← Ui.isInfoViewOpened
  if opened.truthy then
    pure ()
  else
    Model.getAccountData P account DataCb.showInfoView ErrCb.showError

/-- The callback inside the "configure" case of `app.init`. -/
@[simp]
def initConfigure (account : List Account) : JS Unit := do
  Model.getAccountData P (Model.first account) DataCb.showEditView ErrCb.showError
  bindConfigViewEvents

/-- The callback inside the default case of `app.init`. -/
@[simp]
def initDefault (account : List Account) : JS Unit :=
  if account.length = 0 then do
    Ui.showAddView
    bindInfoViewEvents
  else do
    Model.getAccountData P (Model.first account) DataCb.showInfoView ErrCb.showError
    bindInfoViewEvents

/-- The function `app.init`. -/
@[simp]
def init : JS Unit := do
  Model.init P ErrCb.showError
  let appControlOperation ← Model.getAppcontrolOperation P ErrCb.showError
  if appControlOperation = some operationAdd then do
    Ui.showAddView
    bindAddViewEvents
  else if appControlOperation = some operationConfigure then
    Model.getCurrentAccount P AccountsCb.initConfigure ErrCb.showError
  else
    Model.getCurrentAccount P AccountsCb.initDefault ErrCb.showError

end App

namespace Ui

variable (P : Platform)

/-- The text of the validation alert. -/
def validationText : String := "Login or data is incorrect."

/-- The function `onAddButtonClick`. -/
@[simp]
def onAddButtonClick : JS Unit :=
  fun w =>
    let usr := trim w.dom.addUsr
    let data := trim w.dom.addData
    if usr = "" ∨ data = "" then
      emit (Event.alert validationText) w
    else
      App.doAddAccount P usr [("data", data)] w

/-- The function `onRemoveButtonClick`; `answer` is what the user replies to
`window.confirm`. -/
@[simp]
def onRemoveButtonClick (answer : Bool) : JS Unit := do
  emit (Event.confirm "Do you want to remove account?" answer)
  if answer then
    App.doRemoveAccount P
  else
    pure ()

/-- The function `onUpdateButtonClick`. -/
@[simp]
def onUpdateButtonClick : JS Unit :=
  fun w => App.doUpdateAccount P w.dom.editData w

/-- The function `onTizenHWKey`. -/
@[simp]
def onTizenHWKey (keyName : String) : JS Unit :=
  if keyName = "back" then App.exit P else pure ()

end Ui

/-! ## Callback delivery and the event loop -/

variable (P : Platform)

/-- Call a function held in the listener table. -/
@[simp]
def invoke : Callback → Value → JS Unit
  | .exit, _ => App.exit P
  | .onUpdated, param => App.onUpdated P param
  | .showAddView, _ => Ui.showAddView

/-- Make the calls of `triggerListener`, in order. -/
@[simp]
def runCalls : List (Callback × Value) → JS Unit
  | [] => pure ()
  | (callback, param) :: rest => do
      invoke P callback param
      runCalls rest

/-- The body of a queued callback. -/
@[simp]
def runTask : Task → JS Unit
  | .accountsReady .remove accounts => App.remove P accounts
  | .accountsReady (.update data onError) accounts => Model.onSuccess P data onError accounts
  | .accountsReady .initConfigure accounts => App.initConfigure P accounts
  | .accountsReady .initDefault accounts => App.initDefault P accounts
  | .extDataReady a .showEditView extData => Ui.showEditView ⟨a.userName, extData⟩
  | .extDataReady a .showInfoView extData => Ui.showInfoView ⟨a.userName, extData⟩
  | .failed .showError e => Ui.showError (ErrArg.error e)
  | .failed .undefined _ => pure ()

/-- Run a block from the event loop: an error nobody catches ends the block and
is reported by the runtime; what the block did before stays done. -/
@[simp]
def topLevel (m : JS Unit) (w : World) : World :=
  match m w with
  | .ok _ w1 => w1
  | .throw e w1 => { w1 with trace := w1.trace ++ [Event.uncaught e] }

/-- Deliver queued callbacks, oldest first, at most `fuel` of them. -/
@[simp]
def drain : Nat → World → World
  | 0, w => w
  | fuel + 1, w =>
      match w.pending with
      | [] => w
      | t :: rest => drain fuel (topLevel (runTask P t) { w with pending := rest })

/-- An upper bound for the number of callbacks a queued callback leads to,
itself included: a list of accounts may be followed by one data fetch. -/
@[simp]
def Task.weight : Task → Nat
  | .accountsReady _ _ => 2
  | _ => 1

/-- Deliver queued callbacks until none is left. -/
@[simp]
def settle (w : World) : World :=
  drain P (w.pending.map Task.weight).sum w

/-- The page load: `app.run` runs `app.init`, then the platform answers. -/
@[simp]
def launch (w : World) : World :=
  settle P (topLevel (App.init P) w)

/-- A user gesture or other event that runs `handler`, then the platform
answers. -/
@[simp]
def handle (handler : JS Unit) (w : World) : World :=
  settle P (topLevel handler w)

/-- The platform's account service notifies the application: the handlers
object registered by `app.model.init` runs, if it was registered. -/
@[simp]
def notify (n : Notification) (w : World) : World :=
  if w.listening then
    handle P (fun w1 => runCalls P (accountListener w1.eventListeners n) w1) w
  else w

/-- The state at page load: empty listener table, empty form, nothing queued. -/
def World.initial (activePage : Option String) : World :=
  { eventListeners := noListeners
    activePage := activePage
    dom := ⟨"", "", "", "", ""⟩
    bindings := []
    listening := false
    pending := []
    trace := [] }

/-- The page transitions recorded in a trace. -/
@[simp]
def pagesShown : List Event → List String
  | [] => []
  | Event.changePage selector :: rest => selector :: pagesShown rest
  | _ :: rest => pagesShown rest

/-- The calls into the model adapter recorded in a trace. -/
@[simp]
def modelCalls : List Event → List ModelCall
  | [] => []
  | Event.call c :: rest => c :: modelCalls rest
  | _ :: rest => modelCalls rest

/-- The alerts recorded in a trace. -/
@[simp]
def alerts : List Event → List String
  | [] => []
  | Event.alert text :: rest => text :: alerts rest
  | _ :: rest => alerts rest

/-- A platform on which every call succeeds: one stored account list and one
extended-data list, whatever is asked. -/
def Platform.working (operation : Option String) (accounts : List Account)
    (extData : List KV) : Platform :=
  { appExit := .ok ()
    appId := .ok "app"
    operation := .ok operation
    getProvider := fun _ => .ok (some ⟨"app"⟩)
    newAccount := fun _ userName => .ok ⟨none, userName⟩
    add := fun _ => .ok 1
    setExtendedData := fun _ _ _ => .ok ()
    remove := fun _ => .ok ()
    update := fun _ => .ok ()
    getAccounts := fun _ => .succeeds accounts
    getExtendedData := fun _ => .succeeds extData
    addAccountListener := .ok () }

/-- The accounts handed to `tizen.account.update`, as recorded in a trace. -/
@[simp]
def updatesSent : List Event → List Value
  | [] => []
  | Event.update v :: rest => v :: updatesSent rest
  | _ :: rest => updatesSent rest

/-- The extended-data writes recorded in a trace: account, key, value. -/
@[simp]
def dataWritten : List Event → List (Account × String × String)
  | [] => []
  | Event.setExtendedData a key value :: rest => (a, key, value) :: dataWritten rest
  | _ :: rest => dataWritten rest

/-! ## Predicates on blocks, for the event loop -/

/-- The block queues nothing: it leaves the queue as it found it. -/
def Keeps {α : Type} (m : JS α) : Prop := ∀ w, (m w).world.pending = w.pending

/-- The block adds callbacks of total weight at most `n` to the queue and
leaves the callbacks already queued in place. -/
def Queues {α : Type} (n : Nat) (m : JS α) : Prop :=
  ∀ w, ∃ new, (m w).world.pending = w.pending ++ new ∧ (new.map Task.weight).sum ≤ n

/-! ## Closed forms used in the statements -/

/-- What `showError` records for an error object. -/
def report (e : JsError) : List Event :=
  [Event.alert e.message, Event.consoleError (ErrArg.error e)]

/-- The value `getApplicationId` returns: the id, or `undefined` when the
platform throws. -/
def Platform.applicationId (P : Platform) : Option String :=
  match P.appId with
  | .ok i => some i
  | .error _ => none

/-- What `getApplicationId(showError)` records. -/
def Platform.applicationIdReport (P : Platform) : List Event :=
  match P.appId with
  | .ok _ => []
  | .error e => report e

/-- The value `getAccountProvider` returns. -/
def Platform.provider (P : Platform) : Option Provider :=
  match P.getProvider P.applicationId with
  | .ok p => p
  | .error _ => none

/-- What `getAccountProvider(showError)` records. -/
def Platform.providerReport (P : Platform) : List Event :=
  P.applicationIdReport ++
    match P.getProvider P.applicationId with
    | .ok _ => []
    | .error e => report e

/-- The value `getAppcontrolOperation` returns: the operation, or `undefined`
when the platform throws. -/
def Platform.launchOperation (P : Platform) : Option String :=
  match P.operation with
  | .ok op => op
  | .error _ => none

/-- What `getAppcontrolOperation(showError)` records after its own call. -/
def Platform.operationReport (P : Platform) : List Event :=
  match P.operation with
  | .ok _ => []
  | .error e => report e

/-- Whether `addAccountListener` registers the handlers object. -/
def Platform.registers (P : Platform) : Bool :=
  match P.addAccountListener with
  | .ok _ => true
  | .error _ => false

/-- What `app.model.init(showError)` records after the registration attempt. -/
def Platform.listenerReport (P : Platform) : List Event :=
  match P.addAccountListener with
  | .ok _ => []
  | .error e => report e

/-- The success callback that `app.init` gives to `getCurrentAccount` when the
launch operation is not "add". -/
def Platform.initCallback (P : Platform) : AccountsCb :=
  if P.launchOperation = some operationConfigure then AccountsCb.initConfigure
  else AccountsCb.initDefault

/-- What the account query of `app.init` leaves in the queue. -/
def Platform.initQueue (P : Platform) : List Task :=
  match P.getAccounts P.applicationId with
  | .succeeds accounts => [Task.accountsReady P.initCallback accounts]
  | .fails e => [Task.failed ErrCb.showError e]
  | .throws _ => []

/-- A sequence of notifications, delivered one after the other. -/
def notifyAll (P : Platform) : List Notification → World → World
  | [], w => w
  | n :: rest, w => notifyAll P rest (notify P n w)

/-- Every platform call that `addAccount userName data` makes returns
normally. -/
def Platform.addWorks (P : Platform) (userName : String)
    (data : List (String × String)) : Prop :=
  ∃ i p a n, P.appId = .ok i ∧ P.getProvider (some i) = .ok p
    ∧ P.newAccount p userName = .ok a ∧ P.add a = .ok n
    ∧ ∀ kv ∈ data, P.setExtendedData { a with id := some n } kv.1 kv.2 = .ok ()

/-- A platform error, for the scenarios below. -/
def storageError : JsError := ⟨"UnknownError", "storage failure"⟩

/-- A platform holding account 7 of "bob" on which `tizen.account.remove`
throws. -/
def Platform.removeFails : Platform :=
  { Platform.working none [⟨some 7, "bob"⟩] [⟨"data", "x"⟩] with
    remove := fun _ => .error storageError }

/-- A platform holding account 7 of "bob" on which `tizen.account.update`
throws. -/
def Platform.updateFails : Platform :=
  { Platform.working none [⟨some 7, "bob"⟩] [⟨"data", "x"⟩] with
    update := fun _ => .error storageError }

/-- A platform without accounts on which `addAccountListener` throws. -/
def Platform.listenerFails : Platform :=
  { Platform.working none [] [] with addAccountListener := .error storageError }

/-- A platform holding account 7 of "bob" on which reading the launch operation
throws. -/
def Platform.operationFails : Platform :=
  { Platform.working (some operationConfigure) [⟨some 7, "bob"⟩] [⟨"data", "x"⟩] with
    operation := .error storageError }

/-- A platform holding account 7 of "bob" whose extended-data fetch reports an
error. -/
def Platform.dataFails : Platform :=
  { Platform.working none [⟨some 7, "bob"⟩] [] with
    getExtendedData := fun _ => .fails storageError }

/-- A platform without accounts on which `tizen.account.add` throws. -/
def Platform.addFails : Platform :=
  { Platform.working none [] [] with add := fun _ => .error storageError }

/-- The values handed to `console.error`, as recorded in a trace. -/
@[simp]
def consoleErrors : List Event → List ErrArg
  | [] => []
  | Event.consoleError v :: rest => v :: consoleErrors rest
  | _ :: rest => consoleErrors rest

/-- A state at page load in which the add form has been filled in. -/
def sampleForm (usr data : String) : World :=
  { World.initial none with dom := ⟨usr, data, "", "", ""⟩ }

/-! ## The account store and the step relation -/

/-- Modelled from the spec: the platform account store is an external
collaborator (spec, sections 1 and 3).  An account of the provider as the store
holds it: identity, user name and extended data. -/
structure Stored where
  id : Nat
  userName : String
  extData : List KV
deriving DecidableEq, Repr

/-- Modelled from the spec: the accounts the store holds for the provider. -/
abbrev Store := List Stored

/-- The account object the platform hands out for a stored account. -/
def Stored.account (x : Stored) : Account := ⟨some x.id, x.userName⟩

/-- An id no stored account has. -/
def Store.freshId (s : Store) : Nat := (s.map (fun x => x.id)).foldl max 0 + 1

/-- Set one key of an extended-data list: replace the value, or add the entry. -/
def setKey (key value : String) : List KV → List KV
  | [] => [⟨key, value⟩]
  | kv :: rest =>
      if kv.key = key then ⟨key, value⟩ :: rest else kv :: setKey key value rest

/-- Modelled from the spec: what a platform call recorded in the trace does to
the store when the platform answers it as `P` says.  A successful `add` stores
one more account, a successful `remove` deletes the account of that id,
`setExtendedData` and `update` rewrite the account of that id; a call that
throws, and every other event, leaves the store alone. -/
def Store.apply (P : Platform) (s : Store) : Event → Store
  | Event.add a =>
      match P.add a with
      | .ok i => s ++ [⟨i, a.userName, []⟩]
      | .error _ => s
  | Event.setExtendedData a key value =>
      match P.setExtendedData a key value with
      | .ok _ =>
          s.map fun x =>
            if some x.id = a.id then { x with extData := setKey key value x.extData }
            else x
      | .error _ => s
  | Event.remove i =>
      match P.remove i with
      | .ok _ => s.filter fun x => decide (some x.id ≠ i)
      | .error _ => s
  | Event.update (Value.account a) =>
      match P.update (Value.account a) with
      | .ok _ =>
          s.map fun x => if some x.id = a.id then { x with userName := a.userName } else x
      | .error _ => s
  | _ => s

/-- The error with which the platform refuses a second account. -/
def accountExists : JsError :=
  ⟨"InvalidValuesError", "the provider already has an account"⟩

/-- Modelled from the spec: the store holds at most one account per provider
(spec, section 3), so while it holds one the platform refuses
`tizen.account.add`: the call throws. -/
def Platform.Guards (P : Platform) (s : Store) : Prop :=
  s ≠ [] → ∀ a, ∃ e, P.add a = .error e

/-- Modelled from the spec: a reliable platform in front of the store `s`: the
account query lists the store, `add` gives a new account a fresh id and is
refused while the store holds an account, every other call succeeds. -/
def Platform.ofStore (operation : Option String) (s : Store) : Platform :=
  { appExit := .ok ()
    appId := .ok "app"
    operation := .ok operation
    getProvider := fun _ => .ok (some ⟨"app"⟩)
    newAccount := fun _ userName => .ok ⟨none, userName⟩
    add := fun _ =>
      match s with
      | [] => .ok s.freshId
      | _ :: _ => .error accountExists
    setExtendedData := fun _ _ _ => .ok ()
    remove := fun _ => .ok ()
    update := fun _ => .ok ()
    getAccounts := fun _ => .succeeds (s.map Stored.account)
    getExtendedData := fun a =>
      .succeeds (((s.find? fun x => decide (some x.id = a.id)).map fun x => x.extData).getD [])
    addAccountListener := .ok () }

/-- Modelled from the spec: the page markup is not among the sources; by the DOM
contract of the spec the add page has the save button, the edit page the save
and remove buttons, the info page the remove button. -/
def pageOfButton : String → Option String
  | "save-button" => some "add-account-view"
  | "edit-save-button" => some "edit-account-view"
  | "edit-remove-button" => some "edit-account-view"
  | "remove-button" => some "info-account-view"
  | _ => none

/-- What the user and the platform can do to the running application. -/
inductive Action
  | type (input text : String)
  | click (button : String) (answer : Bool)
  | notification (n : Notification)
deriving DecidableEq, Repr

/-- The user types `text` into an input element. -/
def typeInto (input text : String) (w : World) : World :=
  if input = "add-account-usr" then { w with dom := { w.dom with addUsr := text } }
  else if input = "add-account-data" then { w with dom := { w.dom with addData := text } }
  else if input = "edit-account-data" then { w with dom := { w.dom with editData := text } }
  else w

/-- The click handlers attached to a button, in the order they were attached. -/
def handlersFor (bindings : List DomBinding) (button : String) : List UiHandler :=
  (bindings.filter fun b => decide (b.target = button ∧ b.event = "click")).map
    fun b => b.handler

/-- Run a handler of the view controller for a click; `answer` is the user's
reply should the handler ask for confirmation.  A click event has no
`keyName`. -/
def runHandler (P : Platform) (answer : Bool) : UiHandler → JS Unit
  | .onAddButtonClick => Ui.onAddButtonClick P
  | .onRemoveButtonClick => Ui.onRemoveButtonClick P answer
  | .onUpdateButtonClick => Ui.onUpdateButtonClick P
  | .onTizenHWKey => Ui.onTizenHWKey P ""

/-- Run the listeners of one event, one after the other; an error in one does
not stop the next. -/
def dispatchAll (P : Platform) (answer : Bool) : List UiHandler → World → World
  | [], w => w
  | h :: rest, w => dispatchAll P answer rest (topLevel (runHandler P answer h) w)

/-- A click on a button: it can be made when the button's page is the active
page; the attached handlers run, then the platform answers. -/
def click (P : Platform) (button : String) (answer : Bool) (w : World) : World :=
  if pageOfButton button ≠ none ∧ pageOfButton button = w.activePage then
    settle P (dispatchAll P answer (handlersFor w.bindings button) w)
  else w

/-- The effect of an action on the application. -/
def act (P : Platform) : Action → World → World
  | .type input text, w => typeInto input text w
  | .click button answer, w => click P button answer w
  | .notification n, w => notify P n w

/-- The application together with the platform's store. -/
structure State where
  world : World
  store : Store

/-- The state after the page load: `app.init` has run against the platform `P`
and the store has taken the platform calls it made. -/
def start (P : Platform) (page : Option String) (s : Store) : State :=
  ⟨launch P (World.initial page), (launch P (World.initial page)).trace.foldl (Store.apply P) s⟩

/-- One step: the action runs against the platform `P`; the store takes the
platform calls recorded during the step. -/
def step (P : Platform) (a : Action) (st : State) : State :=
  ⟨act P a st.world,
    ((act P a st.world).trace.drop st.world.trace.length).foldl (Store.apply P) st.store⟩

/-- A sequence of steps, each with the platform's behaviour during it.  The
notifications are whichever the platform delivers, in any order, and steps may
follow a call of `app.exit`: both only add sequences to those a real run has. -/
def run : List (Platform × Action) → State → State
  | [], st => st
  | (P, a) :: rest, st => run rest (step P a st)

/-- Every step's platform guards the store as the step finds it. -/
def Coherent : List (Platform × Action) → State → Prop
  | [], _ => True
  | (P, a) :: rest, st => P.Guards st.store ∧ Coherent rest (step P a st)

/-- A sequence of actions on the reliable platform in front of the store, the
launch operation being `op`. -/
def runOn (op : Option String) : List Action → State → State
  | [], st => st
  | a :: rest, st => runOn op rest (step (Platform.ofStore op st.store) a st)

/-- The number of clicks on the add view's save button in a sequence. -/
def addClicks : List (Platform × Action) → Nat
  | [] => 0
  | (_, Action.click button _) :: rest =>
      (if button = "save-button" then 1 else 0) + addClicks rest
  | _ :: rest => addClicks rest

/-- The number of `tizen.account.add` calls recorded in a trace. -/
def adds : List Event → Nat
  | [] => 0
  | Event.add _ :: rest => adds rest + 1
  | _ :: rest => adds rest

/-- The number of add-button handlers among a list of handlers. -/
def addHandlers : List UiHandler → Nat
  | [] => 0
  | UiHandler.onAddButtonClick :: rest => addHandlers rest + 1
  | _ :: rest => addHandlers rest

/-- The callbacks of `app.init`, the only ones that attach handlers. -/
def Task.isInit : Task → Bool
  | .accountsReady .initConfigure _ => true
  | .accountsReady .initDefault _ => true
  | _ => false

/-- The block makes at most `k` calls of `tizen.account.add`, only adds to the
trace, attaches no handler and queues no callback of `app.init`. -/
def Tame {α : Type} (k : Nat) (m : JS α) : Prop :=
  ∀ w, ∃ new q, (m w).world.trace = w.trace ++ new ∧ adds new ≤ k
    ∧ (m w).world.bindings = w.bindings
    ∧ (m w).world.pending = w.pending ++ q ∧ ∀ t ∈ q, t.isInit = false

/-- The same for a whole turn of the event loop, started with no callback of
`app.init` in the queue. -/
def Calm (k : Nat) (f : World → World) : Prop :=
  ∀ w, (∀ t ∈ w.pending, t.isInit = false) →
    ∃ new, (f w).trace = w.trace ++ new ∧ adds new ≤ k
      ∧ (f w).bindings = w.bindings ∧ ∀ t ∈ (f w).pending, t.isInit = false

/-- The handlers `app.ui.bindAddViewEvents` attaches. -/
def addViewBindings : List DomBinding :=
  [⟨"document", "tizenhwkey", UiHandler.onTizenHWKey⟩,
   ⟨"save-button", "click", UiHandler.onAddButtonClick⟩]

/-- The handlers `app.ui.bindConfigViewEvents` attaches. -/
def configViewBindings : List DomBinding :=
  [⟨"document", "tizenhwkey", UiHandler.onTizenHWKey⟩,
   ⟨"edit-save-button", "click", UiHandler.onUpdateButtonClick⟩,
   ⟨"edit-remove-button", "click", UiHandler.onRemoveButtonClick⟩]

/-- The handlers `app.ui.bindInfoViewEvents` attaches. -/
def infoViewBindings : List DomBinding :=
  [⟨"document", "tizenhwkey", UiHandler.onTizenHWKey⟩,
   ⟨"remove-button", "click", UiHandler.onRemoveButtonClick⟩,
   ⟨"save-button", "click", UiHandler.onAddButtonClick⟩]

/-- A stored account, for the scenarios below. -/
def bobStored : Stored := ⟨7, "bob", [⟨"data", "x"⟩]⟩

/-- The user fills in the add form. -/
def fillAddForm (P : Platform) : List (Platform × Action) :=
  [(P, Action.type "add-account-usr" "eve"), (P, Action.type "add-account-data" "y")]

/-- The account the add form of the scenarios below creates in an empty store. -/
def eveStored : Stored := ⟨1, "eve", [⟨"data", "y"⟩]⟩

/-- The user fills in the add form and clicks its save button twice, the second
time when the first account is stored. -/
def addTwiceSteps : List (Platform × Action) :=
  fillAddForm (Platform.ofStore none [])
    ++ [(Platform.ofStore none [], Action.click "save-button" false),
        (Platform.ofStore none [eveStored], Action.click "save-button" false)]

/-- The user removes the stored account and the platform notifies the removal. -/
def removeSteps : List (Platform × Action) :=
  [(Platform.ofStore none [bobStored], Action.click "remove-button" true),
   (Platform.ofStore none [], Action.notification (Notification.removed 7))]

/-! ## Basic facts -/

@[simp]
theorem pure_apply {α : Type} (a : α) (w : World) :
    (pure a : JS α) w = Outcome.ok a w := rfl

@[simp]
theorem bind_apply {α β : Type} (m : JS α) (f : α → JS β) (w : World) :
    (m >>= f) w = JS.bind m f w := rfl

theorem pagesShown_append (xs ys : List Event) :
    pagesShown (xs ++ ys) = pagesShown xs ++ pagesShown ys := by
  induction xs with
  | nil => rfl
  | cons e rest ih => cases e <;> simp [ih]

theorem modelCalls_append (xs ys : List Event) :
    modelCalls (xs ++ ys) = modelCalls xs ++ modelCalls ys := by
  induction xs with
  | nil => rfl
  | cons e rest ih => cases e <;> simp [ih]

theorem alerts_append (xs ys : List Event) :
    alerts (xs ++ ys) = alerts xs ++ alerts ys := by
  induction xs with
  | nil => rfl
  | cons e rest ih => cases e <;> simp [ih]

@[simp]
theorem getApplicationId_showError (P : Platform) (w : World) :
    Model.getApplicationId P ErrCb.showError w
      = Outcome.ok P.applicationId
          { w with trace := w.trace ++ P.applicationIdReport } := by
  cases h : P.appId <;>
    simp [h, Model.getApplicationId, Platform.applicationId,
      Platform.applicationIdReport, report]

@[simp]
theorem getAccountProvider_showError (P : Platform) (w : World) :
    Model.getAccountProvider P ErrCb.showError w
      = Outcome.ok P.provider { w with trace := w.trace ++ P.providerReport } := by
  cases h : P.appId <;> cases h2 : P.getProvider P.applicationId <;>
    simp_all [Model.getAccountProvider, Platform.applicationId,
      Platform.applicationIdReport, report, Platform.provider, Platform.providerReport]

@[simp]
theorem modelCalls_applicationIdReport (P : Platform) :
    modelCalls P.applicationIdReport = [] := by
  cases h : P.appId <;> simp [h, Platform.applicationIdReport, report]

@[simp]
theorem pagesShown_applicationIdReport (P : Platform) :
    pagesShown P.applicationIdReport = [] := by
  cases h : P.appId <;> simp [h, Platform.applicationIdReport, report]

@[simp]
theorem modelCalls_providerReport (P : Platform) :
    modelCalls P.providerReport = [] := by
  cases h : P.getProvider P.applicationId <;>
    simp [h, Platform.providerReport, report, modelCalls_append]

@[simp]
theorem getAppcontrolOperation_showError (P : Platform) (w : World) :
    Model.getAppcontrolOperation P ErrCb.showError w
      = Outcome.ok P.launchOperation
          { w with trace := w.trace
              ++ Event.call ModelCall.getAppcontrolOperation :: P.operationReport } := by
  cases h : P.operation <;>
    simp [h, Model.getAppcontrolOperation, Platform.launchOperation,
      Platform.operationReport, report]

@[simp]
theorem init_showError (P : Platform) (w : World) :
    Model.init P ErrCb.showError w
      = Outcome.ok ()
          { w with
            listening := w.listening || P.registers
            trace := w.trace
              ++ Event.call ModelCall.init :: Event.addAccountListener :: P.listenerReport } := by
  cases h : P.addAccountListener <;>
    simp [h, Model.init, Platform.registers, Platform.listenerReport, report]

@[simp]
theorem pagesShown_report (e : JsError) : pagesShown (report e) = [] := rfl

@[simp]
theorem pagesShown_operationReport (P : Platform) :
    pagesShown P.operationReport = [] := by
  cases h : P.operation <;> simp [h, Platform.operationReport]

@[simp]
theorem pagesShown_listenerReport (P : Platform) :
    pagesShown P.listenerReport = [] := by
  cases h : P.addAccountListener <;> simp [h, Platform.listenerReport]

theorem operationConfigure_ne_operationAdd : operationConfigure ≠ operationAdd := by
  decide

/-! ## The event loop comes to rest -/

theorem keeps_pure {α : Type} (a : α) : Keeps (pure a : JS α) := fun _ => rfl

theorem keeps_throwJs {α : Type} (e : JsError) : Keeps (throwJs e : JS α) := fun _ => rfl

theorem keeps_emit (ev : Event) : Keeps (emit ev) := fun _ => rfl

theorem keeps_modifyDom (f : Dom → Dom) : Keeps (modifyDom f) := fun _ => rfl

theorem keeps_changePage (s : String) : Keeps (Ui.changePage s) := fun _ => rfl

theorem keeps_platformCall {α : Type} (ev : Event) (r : Except JsError α) :
    Keeps (platformCall ev r) := by
  intro w; cases r <;> rfl

theorem keeps_platformRead {α : Type} (r : Except JsError α) : Keeps (platformRead r) := by
  intro w; cases r <;> rfl

theorem keeps_bind {α β : Type} {m : JS α} {f : α → JS β} (hm : Keeps m)
    (hf : ∀ a, Keeps (f a)) : Keeps (m >>= f) := by
  intro w
  have h1 := hm w
  show (JS.bind m f w).world.pending = w.pending
  simp only [JS.bind]
  cases hmw : m w with
  | ok a w1 =>
    rw [hmw] at h1
    simp only [Outcome.world] at h1
    rw [← h1]
    exact hf a w1
  | throw e w1 =>
    rw [hmw] at h1
    exact h1

theorem keeps_tryCatch {α : Type} {m : JS α} {h : JsError → JS α} (hm : Keeps m)
    (hh : ∀ e, Keeps (h e)) : Keeps (tryCatch m h) := by
  intro w
  have h1 := hm w
  show (tryCatch m h w).world.pending = w.pending
  simp only [tryCatch]
  cases hmw : m w with
  | ok a w1 =>
    rw [hmw] at h1
    exact h1
  | throw e w1 =>
    rw [hmw] at h1
    simp only [Outcome.world] at h1
    rw [← h1]
    exact hh e w1

theorem keeps_showError (v : ErrArg) : Keeps (Ui.showError v) :=
  keeps_bind (keeps_emit _) (fun _ => keeps_emit _)

theorem keeps_callErr (cb : ErrCb) (v : ErrArg) : Keeps (Model.callErr cb v) := by
  cases cb
  · exact keeps_showError v
  · exact keeps_throwJs _

theorem keeps_setEach (P : Platform) (a : Account) (data ext : List (String × String)) :
    Keeps (Model.setEach P a data ext) := by
  induction ext with
  | nil => exact keeps_pure ()
  | cons kv rest ih =>
    obtain ⟨k, v⟩ := kv
    unfold Model.setEach
    split
    · exact keeps_throwJs _
    · exact keeps_bind (keeps_platformCall _ _) (fun _ => ih)

theorem keeps_setAll (P : Platform) (a : Account) (ext : List (String × String)) :
    Keeps (Model.setAll P a ext) :=
  keeps_setEach P a ext ext

theorem keeps_removeAccount (P : Platform) (i : Option Nat) (cb : ErrCb) :
    Keeps (Model.removeAccount P i cb) :=
  keeps_bind (keeps_emit _)
    (fun _ => keeps_tryCatch (keeps_platformCall _ _) (fun _ => keeps_callErr _ _))

theorem keeps_onSuccess (P : Platform) (data : Patch) (onError : ErrCb)
    (accounts : List Account) : Keeps (Model.onSuccess P data onError accounts) := by
  unfold Model.onSuccess
  have tail : ∀ account : Option Account, Keeps (tryCatch
      (platformCall
        (Event.update (match account with
          | some a => Value.account a
          | none => Value.undefined))
        (P.update (match account with
          | some a => Value.account a
          | none => Value.undefined)))
      (fun error => Model.callErr onError (ErrArg.text error.message))) :=
    fun _ => keeps_tryCatch (keeps_platformCall _ _) (fun _ => keeps_callErr _ _)
  refine keeps_bind ?_ (fun account => ?_)
  · cases data.user with
    | none => exact keeps_pure _
    | some user =>
      simp only
      split
      · cases accounts.head? with
        | none => exact keeps_throwJs _
        | some a => exact keeps_pure _
      · exact keeps_pure _
  · simp only
    cases data.extData with
    | none => exact keeps_bind (keeps_pure _) (fun _ => tail account)
    | some ext =>
      cases account with
      | none =>
        simp only
        split
        · exact keeps_bind (keeps_pure _) (fun _ => tail none)
        · exact keeps_bind (keeps_throwJs _) (fun _ => tail none)
      | some a => exact keeps_bind (keeps_setAll P a ext) (fun _ => tail (some a))

theorem queues_of_keeps {α : Type} {m : JS α} (n : Nat) (h : Keeps m) : Queues n m :=
  fun w => ⟨[], by simpa using h w, by simp⟩

theorem queues_bind_keeps {α β : Type} {n : Nat} {m : JS α} {f : α → JS β}
    (hm : Queues n m) (hf : ∀ a, Keeps (f a)) : Queues n (m >>= f) := by
  intro w
  obtain ⟨new, h1, h2⟩ := hm w
  refine ⟨new, ?_, h2⟩
  show (JS.bind m f w).world.pending = _
  simp only [JS.bind]
  cases hmw : m w with
  | ok a w1 =>
    rw [hmw] at h1
    simp only [Outcome.world] at h1
    rw [← h1]
    exact hf a w1
  | throw e w1 =>
    rw [hmw] at h1
    exact h1

theorem queues_keeps_bind {α β : Type} {n : Nat} {m : JS α} {f : α → JS β}
    (hm : Keeps m) (hf : ∀ a, Queues n (f a)) : Queues n (m >>= f) := by
  intro w
  have h1 := hm w
  show ∃ new, (JS.bind m f w).world.pending = _ ∧ _
  simp only [JS.bind]
  cases hmw : m w with
  | ok a w1 =>
    rw [hmw] at h1
    simp only [Outcome.world] at h1
    rw [← h1]
    exact hf a w1
  | throw e w1 =>
    rw [hmw] at h1
    exact ⟨[], by simpa using h1, by simp⟩

theorem queues_getAccountData (P : Platform) (v : Value) (cb : DataCb) (e : ErrCb) :
    Queues 1 (Model.getAccountData P v cb e) := by
  unfold Model.getAccountData
  refine queues_keeps_bind (keeps_emit _) (fun _ => ?_)
  cases v with
  | undefined => exact queues_of_keeps 1 (keeps_throwJs _)
  | accountId n => exact queues_of_keeps 1 (keeps_throwJs _)
  | account a =>
    refine queues_keeps_bind (keeps_emit _) (fun _ => ?_)
    cases P.getExtendedData a with
    | throws e => exact queues_of_keeps 1 (keeps_throwJs _)
    | fails e1 => exact fun w => ⟨[Task.failed e e1], rfl, by simp⟩
    | succeeds d => exact fun w => ⟨[Task.extDataReady a cb d], rfl, by simp⟩

theorem keeps_domAddEventListener (t ev : String) (h : UiHandler) :
    Keeps (Ui.domAddEventListener t ev h) := fun _ => rfl

theorem keeps_addEventListener (name : String) (c : Callback) :
    Keeps (Model.addEventListener name c) := fun _ => rfl

theorem keeps_bindConfigViewEvents : Keeps App.bindConfigViewEvents :=
  keeps_bind
    (keeps_bind (keeps_domAddEventListener _ _ _) (fun _ =>
      keeps_bind (keeps_domAddEventListener _ _ _) (fun _ => keeps_domAddEventListener _ _ _)))
    (fun _ => keeps_bind (keeps_addEventListener _ _) (fun _ => keeps_addEventListener _ _))

theorem keeps_bindInfoViewEvents : Keeps App.bindInfoViewEvents :=
  keeps_bind
    (keeps_bind (keeps_domAddEventListener _ _ _) (fun _ =>
      keeps_bind (keeps_domAddEventListener _ _ _) (fun _ => keeps_domAddEventListener _ _ _)))
    (fun _ => keeps_bind (keeps_addEventListener _ _) (fun _ => keeps_addEventListener _ _))

theorem keeps_showAddView : Keeps Ui.showAddView :=
  keeps_bind (keeps_modifyDom _) (fun _ => keeps_changePage _)

theorem keeps_showEditView (d : Ui.AccountData) : Keeps (Ui.showEditView d) := by
  unfold Ui.showEditView
  cases d.data.head? with
  | none => exact keeps_throwJs _
  | some first =>
    simp only
    split
    · exact keeps_bind (keeps_modifyDom _) (fun _ => keeps_changePage _)
    · exact keeps_bind (keeps_pure _) (fun _ => keeps_changePage _)

theorem keeps_showInfoView (d : Ui.AccountData) : Keeps (Ui.showInfoView d) :=
  keeps_bind (keeps_modifyDom _) (fun _ =>
    keeps_bind (keeps_modifyDom _) (fun _ => keeps_changePage _))

theorem keeps_remove (P : Platform) (accounts : List Account) :
    Keeps (App.remove P accounts) := by
  unfold App.remove
  cases accounts.head? with
  | none => exact keeps_pure _
  | some a => exact keeps_removeAccount P _ _

/-- A queued callback queues at most one further callback, of smaller weight. -/
theorem queues_runTask (P : Platform) (t : Task) : Queues (t.weight - 1) (runTask P t) := by
  cases t with
  | accountsReady cb accounts =>
    cases cb with
    | remove => exact queues_of_keeps _ (keeps_remove P accounts)
    | update data onError => exact queues_of_keeps _ (keeps_onSuccess P data onError accounts)
    | initConfigure =>
      exact queues_bind_keeps (queues_getAccountData P _ _ _) (fun _ => keeps_bindConfigViewEvents)
    | initDefault =>
      show Queues 1 (App.initDefault P accounts)
      unfold App.initDefault
      split
      · exact queues_of_keeps _ (keeps_bind keeps_showAddView (fun _ => keeps_bindInfoViewEvents))
      · exact queues_bind_keeps (queues_getAccountData P _ _ _) (fun _ => keeps_bindInfoViewEvents)
  | extDataReady a cb d =>
    cases cb with
    | showEditView => exact queues_of_keeps _ (keeps_showEditView _)
    | showInfoView => exact queues_of_keeps _ (keeps_showInfoView _)
  | failed cb e =>
    cases cb with
    | showError => exact queues_of_keeps _ (keeps_showError _)
    | undefined => exact queues_of_keeps _ (keeps_pure _)

theorem topLevel_pending (m : JS Unit) (w : World) :
    (topLevel m w).pending = (m w).world.pending := by
  simp only [topLevel]
  cases m w <;> rfl

theorem Task.weight_pos (t : Task) : 1 ≤ t.weight := by
  cases t <;> simp

theorem drain_pending (P : Platform) :
    ∀ (fuel : Nat) (w : World), (w.pending.map Task.weight).sum ≤ fuel →
      (drain P fuel w).pending = [] := by
  intro fuel
  induction fuel with
  | zero =>
    intro w h
    cases hp : w.pending with
    | nil => simpa [drain] using hp
    | cons t rest =>
      rw [hp] at h
      have := Task.weight_pos t
      simp only [List.map_cons, List.sum_cons] at h
      omega
  | succ fuel ih =>
    intro w h
    cases hp : w.pending with
    | nil => simp [drain, hp]
    | cons t rest =>
      rw [hp] at h
      simp only [drain, hp]
      apply ih
      obtain ⟨new, h1, h2⟩ := queues_runTask P t { w with pending := rest }
      rw [topLevel_pending, h1]
      have := Task.weight_pos t
      simp only [List.map_cons, List.sum_cons, List.map_append, List.sum_append] at h ⊢
      omega

/-- Delivery always comes to rest: after `settle` nothing is queued, so the fuel
`settle` computes is enough. -/
theorem settle_pending (P : Platform) (w : World) : (settle P w).pending = [] :=
  drain_pending P _ w (Nat.le_refl _)

/-! ## Startup: which view `app.init` shows (C1) -/

/-- Launch with the add operation on a working platform: the Add view is shown
and `updated` is bound to `exit`, whatever accounts are stored. -/
theorem init_add_shows_add (accounts : List Account) (extData : List KV)
    (page : Option String) :
    pagesShown (launch (Platform.working (some operationAdd) accounts extData)
        (World.initial page)).trace = ["#add-account-view"]
    ∧ (launch (Platform.working (some operationAdd) accounts extData)
        (World.initial page)).eventListeners
      = (fun k => if k = "updated" then some Callback.exit else none) := by
  constructor
  · simp [Platform.working, Platform.applicationId, Platform.applicationIdReport,
      Platform.launchOperation, Platform.operationReport, Platform.registers,
      Platform.listenerReport, World.initial]
  · funext k
    simp [Platform.working, Platform.applicationId, Platform.applicationIdReport,
      Platform.launchOperation, Platform.operationReport, Platform.registers,
      Platform.listenerReport, World.initial, addEventListener, noListeners]

/-- Launch with the configure operation on a working platform, the account
having at least one extended-data entry: the Edit view is shown, `updated` and
`removed` are bound to `exit`. -/
theorem init_configure_shows_edit (a : Account) (kv : KV) (rest : List KV)
    (page : Option String) :
    pagesShown (launch (Platform.working (some operationConfigure) [a] (kv :: rest))
        (World.initial page)).trace = ["#edit-account-view"]
    ∧ (launch (Platform.working (some operationConfigure) [a] (kv :: rest))
        (World.initial page)).eventListeners
      = (fun k => if k = "removed" then some Callback.exit
                  else if k = "updated" then some Callback.exit else none) := by
  constructor
  · by_cases hk : kv.key = "data" <;>
      simp [Platform.working, Platform.applicationId, Platform.applicationIdReport,
      Platform.launchOperation, Platform.operationReport, Platform.registers,
      Platform.listenerReport, World.initial, operationAdd, operationConfigure, hk]
  · funext k
    by_cases hk : kv.key = "data" <;>
      simp [Platform.working, Platform.applicationId, Platform.applicationIdReport,
      Platform.launchOperation, Platform.operationReport, Platform.registers,
      Platform.listenerReport, World.initial, operationAdd, operationConfigure, hk,
        addEventListener, noListeners]

/-- Default launch on a working platform without an account: the Add view is
shown with the info-view listeners. -/
theorem init_default_empty_shows_add (op : Option String) (extData : List KV)
    (page : Option String) (h1 : op ≠ some operationAdd)
    (h2 : op ≠ some operationConfigure) :
    pagesShown (launch (Platform.working op [] extData) (World.initial page)).trace
      = ["#add-account-view"]
    ∧ (launch (Platform.working op [] extData) (World.initial page)).eventListeners
      = (fun k => if k = "removed" then some Callback.showAddView
                  else if k = "updated" then some Callback.onUpdated else none) := by
  constructor
  · simp [Platform.working, Platform.applicationId, Platform.applicationIdReport,
      Platform.launchOperation, Platform.operationReport, Platform.registers,
      Platform.listenerReport, World.initial, h1, h2]
  · funext k
    simp [Platform.working, Platform.applicationId, Platform.applicationIdReport,
      Platform.launchOperation, Platform.operationReport, Platform.registers,
      Platform.listenerReport, World.initial, h1, h2, addEventListener, noListeners]

/-- Default launch on a working platform with an account: the Info view is
shown with the info-view listeners, whatever the extended data. -/
theorem init_default_account_shows_info (op : Option String) (a : Account)
    (extData : List KV) (page : Option String) (h1 : op ≠ some operationAdd)
    (h2 : op ≠ some operationConfigure) :
    pagesShown (launch (Platform.working op [a] extData) (World.initial page)).trace
      = ["#info-account-view"]
    ∧ (launch (Platform.working op [a] extData) (World.initial page)).eventListeners
      = (fun k => if k = "removed" then some Callback.showAddView
                  else if k = "updated" then some Callback.onUpdated else none) := by
  constructor
  · simp [Platform.working, Platform.applicationId, Platform.applicationIdReport,
      Platform.launchOperation, Platform.operationReport, Platform.registers,
      Platform.listenerReport, World.initial, h1, h2]
  · funext k
    simp [Platform.working, Platform.applicationId, Platform.applicationIdReport,
      Platform.launchOperation, Platform.operationReport, Platform.registers,
      Platform.listenerReport, World.initial, h1, h2, addEventListener, noListeners]

/-- C1, at the failing inputs.  Launch with the configure operation, every
platform call succeeding: when the stored account has no extended data,
`showEditView` throws on `account.data[0].key` and no view is shown although the
listeners are bound; when no account is stored, `getAccountData` throws on
`account[0]`, no view is shown and no listener is bound. -/
theorem init_configure_shows_no_view (a : Account) (page : Option String) :
    (pagesShown (launch (Platform.working (some operationConfigure) [a] [])
        (World.initial page)).trace = []
      ∧ (launch (Platform.working (some operationConfigure) [a] [])
        (World.initial page)).activePage = page
      ∧ (launch (Platform.working (some operationConfigure) [a] [])
        (World.initial page)).pending = []
      ∧ Event.uncaught (typeError "Cannot read property key of undefined") ∈
        (launch (Platform.working (some operationConfigure) [a] [])
          (World.initial page)).trace
      ∧ (launch (Platform.working (some operationConfigure) [a] [])
        (World.initial page)).eventListeners "updated" = some Callback.exit
      ∧ (launch (Platform.working (some operationConfigure) [a] [])
        (World.initial page)).eventListeners "removed" = some Callback.exit)
    ∧ (pagesShown (launch (Platform.working (some operationConfigure) [] [])
        (World.initial page)).trace = []
      ∧ (launch (Platform.working (some operationConfigure) [] [])
        (World.initial page)).activePage = page
      ∧ (launch (Platform.working (some operationConfigure) [] [])
        (World.initial page)).pending = []
      ∧ (∀ k, (launch (Platform.working (some operationConfigure) [] [])
        (World.initial page)).eventListeners k = none)) := by
  refine ⟨?_, ?_⟩
  · simp [Platform.working, Platform.applicationId, Platform.applicationIdReport,
      Platform.launchOperation, Platform.operationReport, Platform.registers,
      Platform.listenerReport, World.initial, operationAdd, operationConfigure,
      addEventListener]
  · simp [Platform.working, Platform.applicationId, Platform.applicationIdReport,
      Platform.launchOperation, Platform.operationReport, Platform.registers,
      Platform.listenerReport, World.initial, operationAdd, operationConfigure, noListeners]

/-! ## `isInfoViewOpened` (C6) -/

/-- The value `isInfoViewOpened` returns is truthy exactly when the active page
is the info page. -/
theorem isInfoViewOpened_truthy (w : World) :
    (∃ v, Ui.isInfoViewOpened w = Outcome.ok v w
      ∧ (v.truthy = true ↔ w.activePage = some "info-account-view")) := by
  cases h : w.activePage <;> simp [h]

/-- C6, at the failing input.  With no active page `isInfoViewOpened` returns
the null page itself, which is not the boolean `false`; with an active page it
returns the boolean comparison of the identifier. -/
theorem isInfoViewOpened_no_page :
    Ui.isInfoViewOpened (World.initial none) = Outcome.ok JsVal.null (World.initial none)
    ∧ JsVal.null ≠ JsVal.bool false
    ∧ (∀ (pageId : String),
        Ui.isInfoViewOpened (World.initial (some pageId))
          = Outcome.ok (JsVal.bool (decide (pageId = "info-account-view")))
              (World.initial (some pageId))) := by
  refine ⟨by simp [World.initial], by decide, ?_⟩
  intro pageId
  simp [World.initial]

/-! ## The add button (C2) -/

theorem addAccount_calls (P : Platform) (u v : String) (w : World) :
    modelCalls (Model.addAccount P u [("data", v)] ErrCb.showError w).world.trace
      = modelCalls w.trace ++ [ModelCall.addAccount u [("data", v)]] := by
  rcases hn : P.newAccount P.provider u with e | a
  · simp [hn, modelCalls_append]
  · rcases ha : P.add a with e | n
    · simp [hn, ha, modelCalls_append]
    · rcases hs : P.setExtendedData { a with id := some n } "data" v with e | _ <;>
        simp [hn, ha, hs, modelCalls_append]

theorem addAccount_pending (P : Platform) (u v : String) (w : World) :
    (Model.addAccount P u [("data", v)] ErrCb.showError w).world.pending = w.pending := by
  rcases hn : P.newAccount P.provider u with e | a
  · simp [hn]
  · rcases ha : P.add a with e | n
    · simp [hn, ha]
    · rcases hs : P.setExtendedData { a with id := some n } "data" v with e | _ <;>
        simp [hn, ha, hs]

theorem addAccount_quiet (P : Platform) (u v : String) (w : World)
    (h : P.addWorks u [("data", v)]) :
    alerts (Model.addAccount P u [("data", v)] ErrCb.showError w).world.trace
      = alerts w.trace := by
  obtain ⟨i, p, a, n, hi, hp, hn, ha, hs⟩ := h
  have hs1 := hs ("data", v) (by simp)
  simp only at hs1
  have hprov : P.provider = p := by
    simp [Platform.provider, Platform.applicationId, hi, hp]
  have hrep : P.providerReport = [] := by
    simp [Platform.providerReport, Platform.applicationIdReport,
      Platform.applicationId, hi, hp]
  simp [hprov, hrep, hn, ha, hs1, alerts_append]

theorem consoleErrors_append (xs ys : List Event) :
    consoleErrors (xs ++ ys) = consoleErrors xs ++ consoleErrors ys := by
  induction xs with
  | nil => rfl
  | cons e rest ih => cases e <;> simp [ih]

/-- The alerts `getAccountProvider(showError)` raises are the messages of the
errors it logs. -/
theorem alerts_providerReport (P : Platform) :
    alerts P.providerReport = (consoleErrors P.providerReport).map Ui.alertText := by
  cases h1 : P.appId <;> cases h2 : P.getProvider P.applicationId <;>
    simp [h1, h2, Platform.providerReport, Platform.applicationIdReport, report,
      alerts_append, consoleErrors_append]

/-- Every alert raised inside `addAccount(..., showError)` is the message of an
error that is logged to the console with it. -/
theorem addAccount_reports (P : Platform) (u v : String) (w : World) :
    ∃ errs : List ErrArg,
      alerts (Model.addAccount P u [("data", v)] ErrCb.showError w).world.trace
        = alerts w.trace ++ errs.map Ui.alertText
      ∧ consoleErrors (Model.addAccount P u [("data", v)] ErrCb.showError w).world.trace
        = consoleErrors w.trace ++ errs := by
  have hr := alerts_providerReport P
  rcases hn : P.newAccount P.provider u with e | a
  · exact ⟨consoleErrors P.providerReport,
      by simp [hn, alerts_append, consoleErrors_append, hr]⟩
  · rcases ha : P.add a with e | n
    · exact ⟨consoleErrors P.providerReport ++ [ErrArg.error e],
        by simp [hn, ha, alerts_append, consoleErrors_append, hr]⟩
    · rcases hs : P.setExtendedData { a with id := some n } "data" v with e | _
      · exact ⟨consoleErrors P.providerReport ++ [ErrArg.error e],
          by simp [hn, ha, hs, alerts_append, consoleErrors_append, hr]⟩
      · exact ⟨consoleErrors P.providerReport,
          by simp [hn, ha, hs, alerts_append, consoleErrors_append, hr]⟩

/-- C2, the claim refuted as stated.  With the form " bob " / "secret" both
trimmed fields are non-empty, and `addAccount` is called once; but
`tizen.account.add` throws, `addAccount` hands the error to `showError`, and so
the click does show an alert, with the platform's message. -/
theorem onAddButtonClick_alerts_platform_error :
    ¬ (Ui.trim (sampleForm " bob " "secret").dom.addUsr = ""
        ∨ Ui.trim (sampleForm " bob " "secret").dom.addData = "")
    ∧ alerts (Ui.onAddButtonClick Platform.addFails
        (sampleForm " bob " "secret")).world.trace = ["storage failure"]
    ∧ modelCalls (Ui.onAddButtonClick Platform.addFails
        (sampleForm " bob " "secret")).world.trace
      = [ModelCall.addAccount "bob" [("data", "secret")]] := by
  decide

/-- C2, as amended.  Whatever the add form holds: when the trimmed user name or
the trimmed data is empty, `onAddButtonClick` shows the validation alert and
does nothing else: the model's `addAccount` is not called and nothing is logged.
Otherwise the handler is exactly one call of `addAccount` with the trimmed user
name, the extended data `(data: trimmed data)` and `showError`: the call is
recorded once, nothing is queued, and the handler raises no alert of its own:
every alert shown is the message of a platform error that `showError` also logs
to the console, and there is none when the platform calls inside `addAccount`
return normally. -/
theorem onAddButtonClick_validates (P : Platform) (w : World) :
    ((Ui.trim w.dom.addUsr = "" ∨ Ui.trim w.dom.addData = "") →
      Ui.onAddButtonClick P w
        = Outcome.ok ()
            { w with trace := w.trace ++ [Event.alert "Login or data is incorrect."] }
      ∧ alerts (Ui.onAddButtonClick P w).world.trace
        = alerts w.trace ++ ["Login or data is incorrect."]
      ∧ modelCalls (Ui.onAddButtonClick P w).world.trace = modelCalls w.trace
      ∧ consoleErrors (Ui.onAddButtonClick P w).world.trace = consoleErrors w.trace)
    ∧ (¬ (Ui.trim w.dom.addUsr = "" ∨ Ui.trim w.dom.addData = "") →
      Ui.onAddButtonClick P w
        = Model.addAccount P (Ui.trim w.dom.addUsr) [("data", Ui.trim w.dom.addData)]
            ErrCb.showError w
      ∧ modelCalls (Ui.onAddButtonClick P w).world.trace
        = modelCalls w.trace
          ++ [ModelCall.addAccount (Ui.trim w.dom.addUsr)
                [("data", Ui.trim w.dom.addData)]]
      ∧ (Ui.onAddButtonClick P w).world.pending = w.pending
      ∧ (∃ errs : List ErrArg,
          alerts (Ui.onAddButtonClick P w).world.trace
            = alerts w.trace ++ errs.map Ui.alertText
          ∧ consoleErrors (Ui.onAddButtonClick P w).world.trace
            = consoleErrors w.trace ++ errs)
      ∧ (P.addWorks (Ui.trim w.dom.addUsr) [("data", Ui.trim w.dom.addData)] →
          alerts (Ui.onAddButtonClick P w).world.trace = alerts w.trace)) := by
  constructor
  · intro h
    have h1 : Ui.onAddButtonClick P w
        = Outcome.ok ()
            { w with trace := w.trace ++ [Event.alert "Login or data is incorrect."] } := by
      simp only [Ui.onAddButtonClick, h, if_true, emit, Ui.validationText]
    rw [h1]
    simp [alerts_append, modelCalls_append, consoleErrors_append]
  · intro h
    have h1 : Ui.onAddButtonClick P w
        = Model.addAccount P (Ui.trim w.dom.addUsr) [("data", Ui.trim w.dom.addData)]
            ErrCb.showError w := by
      simp only [Ui.onAddButtonClick, h, if_false, App.doAddAccount]
    rw [h1]
    exact ⟨rfl, addAccount_calls P _ _ w, addAccount_pending P _ _ w,
      addAccount_reports P _ _ w, addAccount_quiet P _ _ w⟩

/-- The add button on a blank user name and on the form " bob " / "secret". -/
theorem onAddButtonClick_validates_witness :
    ((Ui.trim (sampleForm " \t" "secret").dom.addUsr = ""
        ∨ Ui.trim (sampleForm " \t" "secret").dom.addData = "")
      ∧ alerts (Ui.onAddButtonClick (Platform.working none [] [])
          (sampleForm " \t" "secret")).world.trace
        = alerts (sampleForm " \t" "secret").trace ++ ["Login or data is incorrect."]
      ∧ modelCalls (Ui.onAddButtonClick (Platform.working none [] [])
          (sampleForm " \t" "secret")).world.trace
        = modelCalls (sampleForm " \t" "secret").trace
      ∧ consoleErrors (Ui.onAddButtonClick (Platform.working none [] [])
          (sampleForm " \t" "secret")).world.trace
        = consoleErrors (sampleForm " \t" "secret").trace)
    ∧ (¬ (Ui.trim (sampleForm " bob " "secret").dom.addUsr = ""
        ∨ Ui.trim (sampleForm " bob " "secret").dom.addData = "")
      ∧ modelCalls (Ui.onAddButtonClick (Platform.working none [] [])
          (sampleForm " bob " "secret")).world.trace
        = modelCalls (sampleForm " bob " "secret").trace
          ++ [ModelCall.addAccount (Ui.trim (sampleForm " bob " "secret").dom.addUsr)
                [("data", Ui.trim (sampleForm " bob " "secret").dom.addData)]]
      ∧ alerts (Ui.onAddButtonClick (Platform.working none [] [])
          (sampleForm " bob " "secret")).world.trace
        = alerts (sampleForm " bob " "secret").trace) :=
  ⟨⟨by decide, ((onAddButtonClick_validates _ _).1 (by decide)).2⟩,
   ⟨by decide, ((onAddButtonClick_validates _ _).2 (by decide)).2.1,
    ((onAddButtonClick_validates _ _).2 (by decide)).2.2.2.2
      ⟨"app", some ⟨"app"⟩, ⟨none, Ui.trim " bob "⟩, 1, rfl, rfl, rfl, rfl,
        fun _ _ => rfl⟩⟩⟩

/-! ## The remove button (C3) -/

/-- C3.  In every state: when the user cancels the confirmation,
`onRemoveButtonClick` only records the prompt, so `removeAccount` is not called
and nothing is queued; when the user confirms and the platform's account query
succeeds with the list `a :: rest`, the handler queues the `remove` callback
with that list, and that callback calls `removeAccount` once, with `a.id`.  From
a state with nothing else queued the whole click makes exactly the calls
`getCurrentAccount`, `removeAccount a.id`. -/
theorem onRemoveButtonClick_removes (P : Platform) (w : World) :
    (Ui.onRemoveButtonClick P false w
        = Outcome.ok ()
            { w with trace := w.trace
                ++ [Event.confirm "Do you want to remove account?" false] }
      ∧ modelCalls (Ui.onRemoveButtonClick P false w).world.trace = modelCalls w.trace
      ∧ (Ui.onRemoveButtonClick P false w).world.pending = w.pending)
    ∧ (∀ a rest, P.getAccounts P.applicationId = Async.succeeds (a :: rest) →
        ((Ui.onRemoveButtonClick P true w).world.pending
            = w.pending ++ [Task.accountsReady AccountsCb.remove (a :: rest)]
          ∧ modelCalls (Ui.onRemoveButtonClick P true w).world.trace
            = modelCalls w.trace ++ [ModelCall.getCurrentAccount])
        ∧ (∀ w2,
            modelCalls (topLevel
                (runTask P (Task.accountsReady AccountsCb.remove (a :: rest))) w2).trace
              = modelCalls w2.trace ++ [ModelCall.removeAccount a.id]
            ∧ (topLevel
                (runTask P (Task.accountsReady AccountsCb.remove (a :: rest))) w2).pending
              = w2.pending)
        ∧ (w.pending = [] →
            modelCalls (handle P (Ui.onRemoveButtonClick P true) w).trace
              = modelCalls w.trace
                ++ [ModelCall.getCurrentAccount, ModelCall.removeAccount a.id]
            ∧ (handle P (Ui.onRemoveButtonClick P true) w).pending = [])) := by
  refine ⟨by simp [modelCalls_append], ?_⟩
  intro a rest h
  refine ⟨by simp [h, modelCalls_append], ?_, ?_⟩
  · intro w2
    rcases hr : P.remove a.id with e | _ <;> simp [hr, modelCalls_append]
  · intro hp
    rcases hr : P.remove a.id with e | _ <;> simp [h, hp, hr, modelCalls_append]

/-- The remove button, confirmed, with the account 7 of "bob" stored. -/
theorem onRemoveButtonClick_removes_witness :
    (Platform.working none [⟨some 7, "bob"⟩] []).getAccounts
        (Platform.working none [⟨some 7, "bob"⟩] []).applicationId
      = Async.succeeds [⟨some 7, "bob"⟩]
    ∧ (World.initial none).pending = []
    ∧ modelCalls (handle (Platform.working none [⟨some 7, "bob"⟩] [])
          (Ui.onRemoveButtonClick (Platform.working none [⟨some 7, "bob"⟩] []) true)
          (World.initial none)).trace
        = modelCalls (World.initial none).trace
          ++ [ModelCall.getCurrentAccount, ModelCall.removeAccount (some 7)] :=
  ⟨rfl, rfl,
    (((onRemoveButtonClick_removes (Platform.working none [⟨some 7, "bob"⟩] [])
      (World.initial none)).2 ⟨some 7, "bob"⟩ [] rfl).2.2 rfl).1⟩

/-! ## `updateAccountData` and the user name (C4) -/

theorem updatesSent_append (xs ys : List Event) :
    updatesSent (xs ++ ys) = updatesSent xs ++ updatesSent ys := by
  induction xs with
  | nil => rfl
  | cons e rest ih => cases e <;> simp [ih]

theorem dataWritten_append (xs ys : List Event) :
    dataWritten (xs ++ ys) = dataWritten xs ++ dataWritten ys := by
  induction xs with
  | nil => rfl
  | cons e rest ih => cases e <;> simp [ih]

@[simp]
theorem updatesSent_applicationIdReport (P : Platform) :
    updatesSent P.applicationIdReport = [] := by
  cases h : P.appId <;> simp [h, Platform.applicationIdReport, report]

theorem shadowsGuard_false (data : List (String × String)) :
    Model.shadowsGuard data = false ↔ ∀ kv ∈ data, kv.1 ≠ "hasOwnProperty" := by
  simp [Model.shadowsGuard]

/-- The loop over the patch's extended data only writes keys of the patch, to
the account it was given, and sends no update.  It completes when the patch has
no key named `hasOwnProperty` and no write throws; when the patch has such a
key the first iteration throws before any write. -/
theorem setEach_spec (P : Platform) (a : Account) (data ext : List (String × String)) :
    ∀ w : World, ∃ l,
      (Model.setEach P a data ext w = Outcome.ok () { w with trace := w.trace ++ l }
        ∨ ∃ e, Model.setEach P a data ext w
            = Outcome.throw e { w with trace := w.trace ++ l })
      ∧ updatesSent l = []
      ∧ (∀ x ∈ dataWritten l, x.1 = a ∧ (x.2.1, x.2.2) ∈ ext)
      ∧ (Model.shadowsGuard data = false →
          (∀ kv ∈ ext, P.setExtendedData a kv.1 kv.2 = .ok ()) →
          Model.setEach P a data ext w = Outcome.ok () { w with trace := w.trace ++ l })
      ∧ (Model.shadowsGuard data = true → ext ≠ [] →
          l = [] ∧ ∃ e, Model.setEach P a data ext w = Outcome.throw e w) := by
  induction ext with
  | nil =>
    intro w
    exact ⟨[], by simp, rfl, by simp, by simp, by simp⟩
  | cons kv rest ih =>
    intro w
    obtain ⟨k, v⟩ := kv
    by_cases hg : Model.shadowsGuard data = true
    · refine ⟨[], Or.inr ⟨typeError "data.hasOwnProperty is not a function", ?_⟩, rfl,
        by simp, ?_, ?_⟩
      · simp only [Model.setEach, hg, if_true, throwJs, List.append_nil]
      · intro hf
        rw [hg] at hf
        cases hf
      · intro _ _
        exact ⟨rfl, typeError "data.hasOwnProperty is not a function",
          by simp only [Model.setEach, hg, if_true, throwJs]⟩
    · have hg2 : Model.shadowsGuard data = false := by
        cases h : Model.shadowsGuard data
        · rfl
        · exact absurd h hg
      have hstep : Model.setEach P a data ((k, v) :: rest) w
          = JS.bind (platformCall (Event.setExtendedData a k v) (P.setExtendedData a k v))
              (fun _ => Model.setEach P a data rest) w := by
        simp only [Model.setEach, hg2, bind_apply]
        rfl
      rcases hs : P.setExtendedData a k v with e | _
      · refine ⟨[Event.setExtendedData a k v], Or.inr ⟨e, ?_⟩, rfl, by simp, ?_, ?_⟩
        · rw [hstep]; simp [hs]
        · intro _ hall
          have := hall (k, v) (by simp)
          simp [hs] at this
        · intro hh
          exact absurd hh hg
      · obtain ⟨l, hl, hu, hd, hok, -⟩ :=
          ih { w with trace := w.trace ++ [Event.setExtendedData a k v] }
        refine ⟨Event.setExtendedData a k v :: l, ?_, by simpa using hu, ?_, ?_, ?_⟩
        · rcases hl with hl | ⟨e, hl⟩
          · left; rw [hstep]; simp [hs, hl]
          · right; exact ⟨e, by rw [hstep]; simp [hs, hl]⟩
        · intro x hx
          simp at hx
          rcases hx with rfl | hx
          · simp
          · have := hd x hx
            exact ⟨this.1, by simp [this.2]⟩
        · intro hf hall
          have h2 := hok hf (fun kv hkv => hall kv (by simp [hkv]))
          rw [hstep]; simp [hs, h2]
        · intro hh
          exact absurd hh hg

/-- C4.  Let the account query deliver `a :: rest` and let the patch have an
`extData` mapping and no `user` field.  Every account that the success callback
of `updateAccountData` hands to `tizen.account.update` has the user name (and
id) of the fetched account `a`, and the only extended-data writes are writes of
the patch's keys to `a`.  When the patch has no key named `hasOwnProperty` and
no write throws, the update call is made, once, with `a`; when the patch has
such a key the guard call throws and neither a write nor an update is made.
`doUpdateAccount d` queues exactly such a callback, with the patch
`(extData: (data: d))`, and so from a state with nothing else queued it sends
no account other than `a`. -/
theorem updateAccountData_keeps_userName (P : Platform) (a : Account)
    (rest : List Account) (ext : List (String × String)) (onError : ErrCb)
    (w : World) :
    (∃ sent written,
      updatesSent (topLevel (runTask P (Task.accountsReady
          (AccountsCb.update ⟨none, some ext⟩ onError) (a :: rest))) w).trace
        = updatesSent w.trace ++ sent
      ∧ (∀ v ∈ sent, ∃ b, v = Value.account b ∧ b.userName = a.userName ∧ b.id = a.id)
      ∧ dataWritten (topLevel (runTask P (Task.accountsReady
          (AccountsCb.update ⟨none, some ext⟩ onError) (a :: rest))) w).trace
        = dataWritten w.trace ++ written
      ∧ (∀ x ∈ written, x.1 = a ∧ (x.2.1, x.2.2) ∈ ext))
    ∧ ((∀ kv ∈ ext, kv.1 ≠ "hasOwnProperty") →
        (∀ kv ∈ ext, P.setExtendedData a kv.1 kv.2 = .ok ()) →
        updatesSent (topLevel (runTask P (Task.accountsReady
            (AccountsCb.update ⟨none, some ext⟩ onError) (a :: rest))) w).trace
          = updatesSent w.trace ++ [Value.account a])
    ∧ ((∃ kv ∈ ext, kv.1 = "hasOwnProperty") →
        updatesSent (topLevel (runTask P (Task.accountsReady
            (AccountsCb.update ⟨none, some ext⟩ onError) (a :: rest))) w).trace
          = updatesSent w.trace
        ∧ dataWritten (topLevel (runTask P (Task.accountsReady
            (AccountsCb.update ⟨none, some ext⟩ onError) (a :: rest))) w).trace
          = dataWritten w.trace)
    ∧ (∀ d, P.getAccounts P.applicationId = Async.succeeds (a :: rest) →
        (App.doUpdateAccount P d w).world.pending
          = w.pending ++ [Task.accountsReady
              (AccountsCb.update ⟨none, some [("data", d)]⟩ ErrCb.showError) (a :: rest)]
        ∧ (w.pending = [] →
            ∃ sent, updatesSent (handle P (App.doUpdateAccount P d) w).trace
                = updatesSent w.trace ++ sent
              ∧ (∀ v ∈ sent, v = Value.account a)
              ∧ (handle P (App.doUpdateAccount P d) w).pending = [])) := by
  refine ⟨?_, ?_, ?_, ?_⟩
  · obtain ⟨l, hl, hu, hd, -, -⟩ := setEach_spec P a ext ext w
    rcases hl with hl | ⟨e, hl⟩
    · refine ⟨[Value.account a], dataWritten l, ?_, by simp, ?_, hd⟩
      · rcases hup : P.update (Value.account a) with e | _ <;> cases onError <;>
          simp [hl, hup, updatesSent_append, hu, -Model.setEach, -Model.shadowsGuard]
      · rcases hup : P.update (Value.account a) with e | _ <;> cases onError <;>
          simp [hl, hup, dataWritten_append, -Model.setEach, -Model.shadowsGuard]
    · refine ⟨[], dataWritten l, ?_, by simp, ?_, hd⟩
      · simp [hl, updatesSent_append, hu, -Model.setEach, -Model.shadowsGuard]
      · simp [hl, dataWritten_append, -Model.setEach, -Model.shadowsGuard]
  · intro hkeys hall
    obtain ⟨l, -, hu, -, hok, -⟩ := setEach_spec P a ext ext w
    have hl := hok ((shadowsGuard_false ext).mpr hkeys) hall
    rcases hup : P.update (Value.account a) with e | _ <;> cases onError <;>
      simp [hl, hup, updatesSent_append, hu, -Model.setEach, -Model.shadowsGuard]
  · intro hkey
    obtain ⟨kv, hkv, hk⟩ := hkey
    have hg : Model.shadowsGuard ext = true := by
      simp only [Model.shadowsGuard, List.any_eq_true, decide_eq_true_eq]
      exact ⟨kv, hkv, hk⟩
    have hne : ext ≠ [] := by
      intro h
      rw [h] at hkv
      cases hkv
    obtain ⟨l, -, -, -, -, hthrow⟩ := setEach_spec P a ext ext w
    obtain ⟨-, e, hl⟩ := hthrow hg hne
    constructor <;>
      simp [hl, updatesSent_append, dataWritten_append, -Model.setEach, -Model.shadowsGuard]
  · intro d h
    refine ⟨by simp [h], ?_⟩
    intro hp
    rcases hs : P.setExtendedData a "data" d with e | _
    · exact ⟨[], by simp [h, hp, hs, updatesSent_append]⟩
    · rcases hu : P.update (Value.account a) with e | _
      · exact ⟨[Value.account a], by simp [h, hp, hs, hu, updatesSent_append]⟩
      · exact ⟨[Value.account a], by simp [h, hp, hs, hu, updatesSent_append]⟩

/-- The update of account 7 of "bob" with the patch `(extData: (data: "x"))`. -/
theorem updateAccountData_keeps_userName_witness :
    (∀ kv ∈ [("data", "x")], kv.1 ≠ "hasOwnProperty")
    ∧ (∀ kv ∈ [("data", "x")],
        (Platform.working none [⟨some 7, "bob"⟩] []).setExtendedData
          ⟨some 7, "bob"⟩ kv.1 kv.2 = .ok ())
    ∧ updatesSent (topLevel (runTask (Platform.working none [⟨some 7, "bob"⟩] [])
          (Task.accountsReady (AccountsCb.update ⟨none, some [("data", "x")]⟩
            ErrCb.showError) [⟨some 7, "bob"⟩])) (World.initial none)).trace
        = updatesSent (World.initial none).trace ++ [Value.account ⟨some 7, "bob"⟩]
    ∧ (Platform.working none [⟨some 7, "bob"⟩] []).getAccounts
          (Platform.working none [⟨some 7, "bob"⟩] []).applicationId
        = Async.succeeds [⟨some 7, "bob"⟩]
    ∧ (App.doUpdateAccount (Platform.working none [⟨some 7, "bob"⟩] []) "x"
          (World.initial none)).world.pending
        = (World.initial none).pending ++ [Task.accountsReady
            (AccountsCb.update ⟨none, some [("data", "x")]⟩ ErrCb.showError)
            [⟨some 7, "bob"⟩]] :=
  ⟨by decide, fun _ _ => rfl,
    (updateAccountData_keeps_userName (Platform.working none [⟨some 7, "bob"⟩] [])
      ⟨some 7, "bob"⟩ [] [("data", "x")] ErrCb.showError (World.initial none)).2.1
      (by decide) (fun _ _ => rfl),
    rfl,
    ((updateAccountData_keeps_userName (Platform.working none [⟨some 7, "bob"⟩] [])
      ⟨some 7, "bob"⟩ [] [("data", "x")] ErrCb.showError (World.initial none)).2.2.2
      "x" rfl).1⟩

/-! ## Default launch without an account, then `updated` notifications (C5) -/

/-- While Info is the active page, the info-view listener is bound and nothing
is queued, an `updated` notification changes nothing at all. -/
theorem notify_updated_idle (P : Platform) (b : Account) (w : World)
    (hpage : w.activePage = some "info-account-view")
    (hlis : w.eventListeners "updated" = some Callback.onUpdated)
    (hpend : w.pending = []) :
    notify P (Notification.updated b) w = w := by
  by_cases hl : w.listening <;>
    simp [hl, accountListener, triggerListener, hlis, hpage, hpend]

theorem notifyAll_updated_idle (P : Platform) (bs : List Account) (w : World)
    (hpage : w.activePage = some "info-account-view")
    (hlis : w.eventListeners "updated" = some Callback.onUpdated)
    (hpend : w.pending = []) :
    notifyAll P (bs.map Notification.updated) w = w := by
  induction bs with
  | nil => rfl
  | cons b rest ih =>
    simp only [List.map, notifyAll]
    rw [notify_updated_idle P b w hpage hlis hpend]
    exact ih

/-- Default launch, the account query delivering no account: Add is shown and
the info-view listeners are bound. -/
theorem launch_default_empty (P : Platform) (page : Option String)
    (h1 : P.launchOperation ≠ some operationAdd)
    (h2 : P.launchOperation ≠ some operationConfigure)
    (hacc : P.getAccounts P.applicationId = Async.succeeds [])
    (hl : P.addAccountListener = .ok ()) :
    (launch P (World.initial page)).activePage = some "add-account-view"
    ∧ pagesShown (launch P (World.initial page)).trace = ["#add-account-view"]
    ∧ (launch P (World.initial page)).eventListeners "updated" = some Callback.onUpdated
    ∧ (launch P (World.initial page)).eventListeners "removed"
        = some Callback.showAddView
    ∧ (launch P (World.initial page)).eventListeners "added" = none
    ∧ (launch P (World.initial page)).listening = true
    ∧ (launch P (World.initial page)).pending = [] := by
  simp [World.initial, hacc, hl, h1, h2, pagesShown_append, addEventListener,
    noListeners, Platform.registers, Platform.listenerReport]

/-- The first `updated` notification after such a launch renders the account
and makes Info the active page. -/
theorem first_updated_shows_info (P : Platform) (page : Option String) (a : Account)
    (extData : List KV)
    (h1 : P.launchOperation ≠ some operationAdd)
    (h2 : P.launchOperation ≠ some operationConfigure)
    (hacc : P.getAccounts P.applicationId = Async.succeeds [])
    (hl : P.addAccountListener = .ok ())
    (hdata : P.getExtendedData a = Async.succeeds extData) :
    (notify P (Notification.updated a) (launch P (World.initial page))).activePage
        = some "info-account-view"
    ∧ (notify P (Notification.updated a) (launch P (World.initial page))).dom.login
        = a.userName
    ∧ (notify P (Notification.updated a) (launch P (World.initial page))).dom.dataHtml
        = Ui.dataHTML extData
    ∧ pagesShown (notify P (Notification.updated a) (launch P (World.initial page))).trace
        = ["#add-account-view", "#info-account-view"]
    ∧ (notify P (Notification.updated a)
        (launch P (World.initial page))).eventListeners "updated"
        = some Callback.onUpdated
    ∧ (notify P (Notification.updated a) (launch P (World.initial page))).pending = [] := by
  simp [World.initial, hacc, hl, h1, h2, hdata, pagesShown_append, addEventListener,
    noListeners, accountListener, triggerListener, Platform.registers,
    Platform.listenerReport]

/-- C5.  After a default launch in which the account query delivers no account
and the account listener is registered, the Add view is active with the
info-view listeners bound; the first `updated` notification for an account whose
extended-data fetch succeeds renders the account and makes Info the active
page; from then on every `updated` notification, and every sequence of them,
whatever the platform would answer, leaves the whole state as it is: trace
(no fetch, no page transition), DOM fields and active page. -/
theorem updated_shows_info_once (P : Platform) (page : Option String) (a : Account)
    (extData : List KV)
    (h1 : P.launchOperation ≠ some operationAdd)
    (h2 : P.launchOperation ≠ some operationConfigure)
    (hacc : P.getAccounts P.applicationId = Async.succeeds [])
    (hl : P.addAccountListener = .ok ())
    (hdata : P.getExtendedData a = Async.succeeds extData) :
    ((launch P (World.initial page)).activePage = some "add-account-view"
      ∧ pagesShown (launch P (World.initial page)).trace = ["#add-account-view"]
      ∧ (launch P (World.initial page)).eventListeners "updated"
          = some Callback.onUpdated
      ∧ (launch P (World.initial page)).eventListeners "removed"
          = some Callback.showAddView)
    ∧ ((notify P (Notification.updated a) (launch P (World.initial page))).activePage
          = some "info-account-view"
      ∧ (notify P (Notification.updated a) (launch P (World.initial page))).dom.login
          = a.userName
      ∧ (notify P (Notification.updated a) (launch P (World.initial page))).dom.dataHtml
          = Ui.dataHTML extData
      ∧ pagesShown
          (notify P (Notification.updated a) (launch P (World.initial page))).trace
          = ["#add-account-view", "#info-account-view"])
    ∧ (∀ (P2 : Platform) (b : Account),
        notify P2 (Notification.updated b)
            (notify P (Notification.updated a) (launch P (World.initial page)))
          = notify P (Notification.updated a) (launch P (World.initial page)))
    ∧ (∀ (P2 : Platform) (bs : List Account),
        notifyAll P2 (bs.map Notification.updated)
            (notify P (Notification.updated a) (launch P (World.initial page)))
          = notify P (Notification.updated a) (launch P (World.initial page))) := by
  obtain ⟨l1, l2, l3, l4, -, -, -⟩ := launch_default_empty P page h1 h2 hacc hl
  obtain ⟨f1, f2, f3, f4, f5, f6⟩ :=
    first_updated_shows_info P page a extData h1 h2 hacc hl hdata
  exact ⟨⟨l1, l2, l3, l4⟩, ⟨f1, f2, f3, f4⟩,
    fun P2 b => notify_updated_idle P2 b _ f1 f5 f6,
    fun P2 bs => notifyAll_updated_idle P2 bs _ f1 f5 f6⟩

/-- Launch from the home menu with no account, then `updated` for account 1 of
"bob" with data "x", then `updated` for an account 2. -/
theorem updated_shows_info_once_witness :
    ((Platform.working none [] [⟨"data", "x"⟩]).launchOperation ≠ some operationAdd
      ∧ (Platform.working none [] [⟨"data", "x"⟩]).launchOperation
          ≠ some operationConfigure
      ∧ (Platform.working none [] [⟨"data", "x"⟩]).getAccounts
          (Platform.working none [] [⟨"data", "x"⟩]).applicationId = Async.succeeds []
      ∧ (Platform.working none [] [⟨"data", "x"⟩]).addAccountListener = .ok ()
      ∧ (Platform.working none [] [⟨"data", "x"⟩]).getExtendedData ⟨some 1, "bob"⟩
          = Async.succeeds [⟨"data", "x"⟩])
    ∧ (notify (Platform.working none [] [⟨"data", "x"⟩])
          (Notification.updated ⟨some 1, "bob"⟩)
          (launch (Platform.working none [] [⟨"data", "x"⟩]) (World.initial none))).activePage
        = some "info-account-view"
    ∧ notify (Platform.working none [] [⟨"data", "y"⟩])
          (Notification.updated ⟨some 2, "eve"⟩)
          (notify (Platform.working none [] [⟨"data", "x"⟩])
            (Notification.updated ⟨some 1, "bob"⟩)
            (launch (Platform.working none [] [⟨"data", "x"⟩]) (World.initial none)))
        = notify (Platform.working none [] [⟨"data", "x"⟩])
            (Notification.updated ⟨some 1, "bob"⟩)
            (launch (Platform.working none [] [⟨"data", "x"⟩]) (World.initial none)) :=
  ⟨⟨by decide, by decide, rfl, rfl, rfl⟩,
    (updated_shows_info_once (Platform.working none [] [⟨"data", "x"⟩]) none
      ⟨some 1, "bob"⟩ [⟨"data", "x"⟩] (by decide) (by decide) rfl rfl rfl).2.1.1,
    (updated_shows_info_once (Platform.working none [] [⟨"data", "x"⟩]) none
      ⟨some 1, "bob"⟩ [⟨"data", "x"⟩] (by decide) (by decide) rfl rfl rfl).2.2.1
      (Platform.working none [] [⟨"data", "y"⟩]) ⟨some 2, "eve"⟩⟩

/-! ## Platform failures inside the model adapter (C7) -/

/-- C7, at the failing input.  `doRemoveAccount` calls `removeAccount` with the
account id alone; when `tizen.account.remove` then throws, the catch block calls
the missing `onError`, so `removeAccount` itself throws a TypeError to its
caller and no error callback is invoked: nothing is alerted, and the click on
the remove button ends in an uncaught error.  The same call with `showError`
passed does not throw. -/
theorem removeAccount_throws_to_caller :
    (Model.removeAccount Platform.removeFails (some 7) ErrCb.undefined
        (World.initial none)).thrown
      = some (typeError "onError is not a function")
    ∧ alerts (Model.removeAccount Platform.removeFails (some 7) ErrCb.undefined
        (World.initial none)).world.trace = []
    ∧ (handle Platform.removeFails (Ui.onRemoveButtonClick Platform.removeFails true)
        (World.initial none)).trace
      = [Event.confirm "Do you want to remove account?" true,
         Event.call ModelCall.getCurrentAccount,
         Event.getAccounts (some "app"),
         Event.call (ModelCall.removeAccount (some 7)),
         Event.remove (some 7),
         Event.uncaught (typeError "onError is not a function")]
    ∧ (Model.removeAccount Platform.removeFails (some 7) ErrCb.showError
        (World.initial none)).thrown = none := by
  decide

/-! ## What the user sees of a platform error (C8) -/

/-- C8, at the failing input.  When `tizen.account.update` throws an error with
the message "storage failure" inside `doUpdateAccount`, the catch block hands
`error.message`, a string, to `showError`, which alerts the `message` property
of that string: the alert reads "undefined", and the console receives the bare
string.  When `tizen.account.remove` throws inside `doRemoveAccount` there is no
alert at all. -/
theorem doUpdateAccount_alerts_undefined :
    Platform.updateFails.update (Value.account ⟨some 7, "bob"⟩) = .error storageError
    ∧ storageError.message = "storage failure"
    ∧ alerts (handle Platform.updateFails (App.doUpdateAccount Platform.updateFails "y")
        (World.initial none)).trace = ["undefined"]
    ∧ Event.consoleError (ErrArg.text "storage failure") ∈
        (handle Platform.updateFails (App.doUpdateAccount Platform.updateFails "y")
          (World.initial none)).trace
    ∧ alerts (handle Platform.removeFails
        (Ui.onRemoveButtonClick Platform.removeFails true) (World.initial none)).trace
      = [] := by
  refine ⟨rfl, rfl, by decide, by decide, by decide⟩

/-! ## Platform failures during startup (C9) -/

theorem settle_idle (P : Platform) (w : World) (hp : w.pending = []) :
    settle P w = w := by
  simp [hp]

/-- The synchronous part of `app.init` when the launch operation is not "add":
it queues the answer of the account query and shows no page. -/
theorem init_sync (P : Platform) (w : World)
    (hop : P.launchOperation ≠ some operationAdd) :
    (topLevel (App.init P) w).pending = w.pending ++ P.initQueue
    ∧ pagesShown (topLevel (App.init P) w).trace = pagesShown w.trace
    ∧ (topLevel (App.init P) w).activePage = w.activePage := by
  by_cases hc : P.launchOperation = some operationConfigure <;>
  rcases hg : P.getAccounts P.applicationId with e | e | accounts <;>
  simp [hg, hop, hc, pagesShown_append, Platform.initQueue, Platform.initCallback,
    operationConfigure_ne_operationAdd]

/-- Delivering an error to `showError` shows no page. -/
theorem settle_failed (P : Platform) (e : JsError) (w : World)
    (hp : w.pending = [Task.failed ErrCb.showError e]) :
    pagesShown (settle P w).trace = pagesShown w.trace
    ∧ (settle P w).activePage = w.activePage
    ∧ (settle P w).pending = []
    ∧ alerts (settle P w).trace = alerts w.trace ++ [e.message] := by
  simp [hp, pagesShown_append, alerts_append]

/-- Delivering the account list to a callback of `app.init` shows no page when
the extended-data fetch for the first account fails. -/
theorem settle_data_fails (P : Platform) (cb : AccountsCb) (a : Account)
    (rest : List Account) (e : JsError) (w : World)
    (hcb : cb = AccountsCb.initConfigure ∨ cb = AccountsCb.initDefault)
    (hp : w.pending = [Task.accountsReady cb (a :: rest)])
    (hd : P.getExtendedData a = Async.throws e ∨ P.getExtendedData a = Async.fails e) :
    pagesShown (settle P w).trace = pagesShown w.trace
    ∧ (settle P w).activePage = w.activePage
    ∧ (settle P w).pending = [] := by
  rcases hcb with rfl | rfl <;> rcases hd with hd | hd <;>
    simp [hp, hd, pagesShown_append]

/-- C9, the claim refuted as stated.  A startup in which registering the account
listener fails still shows the Add view, and a startup in which reading the
launch operation fails still shows the Info view; in both the error is
alerted and `app.init` carries on. -/
theorem init_failure_still_shows_view :
    (Platform.listenerFails.addAccountListener = .error storageError
      ∧ pagesShown (launch Platform.listenerFails (World.initial none)).trace
          = ["#add-account-view"]
      ∧ alerts (launch Platform.listenerFails (World.initial none)).trace
          = ["storage failure"])
    ∧ (Platform.operationFails.operation = .error storageError
      ∧ pagesShown (launch Platform.operationFails (World.initial none)).trace
          = ["#info-account-view"]
      ∧ alerts (launch Platform.operationFails (World.initial none)).trace
          = ["storage failure"]) := by
  refine ⟨⟨rfl, by decide, by decide⟩, ⟨rfl, by decide, by decide⟩⟩

/-- C9, as amended.  In every startup whose launch operation, as read by
`app.init`, is not "add": when listing the provider's accounts fails (the call
throws or reports through the error callback), or the listing delivers
`a :: rest` and the extended-data fetch for `a` fails, no view is shown: no
page transition is recorded, the active page is the one before the launch, and
nothing is left queued.  This holds whether or not registering the listener or
reading the launch operation failed. -/
theorem init_failure_shows_no_view (P : Platform) (page : Option String)
    (hop : P.launchOperation ≠ some operationAdd)
    (hfail : (∃ e, P.getAccounts P.applicationId = Async.throws e
                ∨ P.getAccounts P.applicationId = Async.fails e)
      ∨ (∃ a rest e, P.getAccounts P.applicationId = Async.succeeds (a :: rest)
          ∧ (P.getExtendedData a = Async.throws e
              ∨ P.getExtendedData a = Async.fails e))) :
    pagesShown (launch P (World.initial page)).trace = []
    ∧ (launch P (World.initial page)).activePage = page
    ∧ (launch P (World.initial page)).pending = [] := by
  obtain ⟨s1, s2, s3⟩ := init_sync P (World.initial page) hop
  have hi : pagesShown (World.initial page).trace = [] := rfl
  have hpg : (World.initial page).activePage = page := rfl
  have hpe : (World.initial page).pending = [] := rfl
  rw [hi] at s2; rw [hpg] at s3; rw [hpe] at s1
  simp only [List.nil_append] at s1
  show pagesShown (settle P (topLevel (App.init P) (World.initial page))).trace = [] ∧ _
  rcases hfail with ⟨e, h | h⟩ | ⟨a, rest, e, h, h2⟩
  · simp only [Platform.initQueue, h] at s1
    simp only [launch]
    rw [settle_idle P _ s1]
    exact ⟨s2, s3, s1⟩
  · simp only [Platform.initQueue, h] at s1
    obtain ⟨t1, t2, t3, -⟩ := settle_failed P e _ s1
    simp only [launch]
    exact ⟨t1.trans s2, t2.trans s3, t3⟩
  · simp only [Platform.initQueue, h] at s1
    have hcb : P.initCallback = AccountsCb.initConfigure
        ∨ P.initCallback = AccountsCb.initDefault := by
      unfold Platform.initCallback; split <;> simp
    obtain ⟨t1, t2, t3⟩ := settle_data_fails P _ a rest e _ hcb s1 h2
    simp only [launch]
    exact ⟨t1.trans s2, t2.trans s3, t3⟩

/-- Launch from the home menu with account 7 stored and its extended-data fetch
failing. -/
theorem init_failure_shows_no_view_witness :
    Platform.dataFails.launchOperation ≠ some operationAdd
    ∧ (Platform.dataFails.getAccounts Platform.dataFails.applicationId
          = Async.succeeds [⟨some 7, "bob"⟩]
        ∧ Platform.dataFails.getExtendedData ⟨some 7, "bob"⟩ = Async.fails storageError)
    ∧ pagesShown (launch Platform.dataFails (World.initial none)).trace = []
    ∧ (launch Platform.dataFails (World.initial none)).activePage = none
    ∧ (launch Platform.dataFails (World.initial none)).pending = [] :=
  ⟨by decide, ⟨rfl, rfl⟩,
    init_failure_shows_no_view Platform.dataFails none (by decide)
      (Or.inr ⟨⟨some 7, "bob"⟩, [], storageError, rfl, Or.inr rfl⟩)⟩

/-! ## The listener table: the last registration wins (C10) -/

theorem accountListener_bound {κ : Type} (n : Notification) (c : κ) (t : Listeners κ) :
    accountListener (addEventListener n.eventName c t) n = [(c, n.param)] := by
  cases n <;>
    simp [accountListener, triggerListener, addEventListener, Notification.eventName,
      Notification.param]

theorem accountListener_unbound {κ : Type} (n : Notification) (t : Listeners κ)
    (h : t n.eventName = none) : accountListener t n = [] := by
  cases n <;> simp_all [accountListener, triggerListener, Notification.eventName]

theorem bind_pure_unit (m : JS Unit) (w : World) :
    JS.bind m (fun _ => pure ()) w = m w := by
  simp only [JS.bind]
  cases m w <;> rfl

/-- C10.  Let `n` be a notification; its name is one of `added`, `removed`,
`updated`.  After `addEventListener(name, c1)` and then
`addEventListener(name, c2)` the table holds `c2` under that name and every
other entry is as before; the notification makes exactly one call, of `c2` with
the notification's argument, and none of `c1` (when `c1` is another callback);
a notification whose entry is null makes no call.  In the running program: the
notification runs `c2` with its argument and nothing else, and a notification
whose entry is null leaves the state as it is. -/
theorem addEventListener_last_wins {κ : Type} (n : Notification) (c1 c2 : κ)
    (t : Listeners κ) :
    n.eventName ∈ ["added", "removed", "updated"]
    ∧ addEventListener n.eventName c2 (addEventListener n.eventName c1 t) n.eventName
        = some c2
    ∧ (∀ m, m ≠ n.eventName →
        addEventListener n.eventName c2 (addEventListener n.eventName c1 t) m = t m)
    ∧ accountListener
        (addEventListener n.eventName c2 (addEventListener n.eventName c1 t)) n
        = [(c2, n.param)]
    ∧ (c1 ≠ c2 → ∀ p,
        (c1, p) ∉ accountListener
          (addEventListener n.eventName c2 (addEventListener n.eventName c1 t)) n)
    ∧ (∀ (t0 : Listeners κ) (n0 : Notification), t0 n0.eventName = none →
        accountListener t0 n0 = [])
    ∧ (∀ (P : Platform) (d1 d2 : Callback) (w : World), w.listening = true →
        notify P n (Model.addEventListener n.eventName d2
            (Model.addEventListener n.eventName d1 w).world).world
          = handle P (invoke P d2 n.param)
              (Model.addEventListener n.eventName d2
                (Model.addEventListener n.eventName d1 w).world).world)
    ∧ (∀ (P : Platform) (w : World), w.eventListeners n.eventName = none →
        w.pending = [] → notify P n w = w) := by
  refine ⟨by cases n <;> simp [Notification.eventName], by simp [addEventListener],
    fun m hm => by simp [addEventListener, hm], accountListener_bound n c2 _, ?_,
    fun t0 n0 h => accountListener_unbound n0 t0 h, ?_, ?_⟩
  · intro hne p
    rw [accountListener_bound]
    simp [hne]
  · intro P d1 d2 w hl
    simp only [notify, Model.addEventListener, Outcome.world, hl, if_true, handle,
      topLevel, accountListener_bound, runCalls, bind_apply, bind_pure_unit]
  · intro P w hn hp
    by_cases hl : w.listening
    · simp only [notify, hl, if_true, accountListener_unbound n _ hn, handle, runCalls,
        pure_apply, topLevel]
      exact settle_idle P w hp
    · simp only [notify, hl]
      rfl

/-- Registering `exit` and then `onUpdated` for `updated`, on the empty table:
`removed` stays null, `exit` is not called, and an `updated` notification on a
table without listeners calls nothing. -/
theorem addEventListener_last_wins_witness :
    ("removed" ≠ (Notification.updated ⟨some 1, "bob"⟩).eventName
      ∧ addEventListener (Notification.updated ⟨some 1, "bob"⟩).eventName
          Callback.onUpdated
          (addEventListener (Notification.updated ⟨some 1, "bob"⟩).eventName
            Callback.exit noListeners) "removed"
        = (noListeners : Listeners Callback) "removed")
    ∧ (Callback.exit ≠ Callback.onUpdated
      ∧ (Callback.exit, Value.account ⟨some 1, "bob"⟩) ∉ accountListener
          (addEventListener (Notification.updated ⟨some 1, "bob"⟩).eventName
            Callback.onUpdated
            (addEventListener (Notification.updated ⟨some 1, "bob"⟩).eventName
              Callback.exit noListeners))
          (Notification.updated ⟨some 1, "bob"⟩))
    ∧ ((noListeners : Listeners Callback)
          (Notification.updated ⟨some 1, "bob"⟩).eventName = none
      ∧ accountListener (noListeners : Listeners Callback)
          (Notification.updated ⟨some 1, "bob"⟩) = []) :=
  ⟨⟨by decide,
      (addEventListener_last_wins (Notification.updated ⟨some 1, "bob"⟩)
        Callback.exit Callback.onUpdated noListeners).2.2.1 "removed" (by decide)⟩,
    ⟨by decide,
      (addEventListener_last_wins (Notification.updated ⟨some 1, "bob"⟩)
        Callback.exit Callback.onUpdated noListeners).2.2.2.2.1 (by decide)
        (Value.account ⟨some 1, "bob"⟩)⟩,
    ⟨rfl,
      (addEventListener_last_wins (Notification.updated ⟨some 1, "bob"⟩)
        Callback.exit Callback.onUpdated noListeners).2.2.2.2.2.1 noListeners
        (Notification.updated ⟨some 1, "bob"⟩) rfl⟩⟩

/-! ## The store holds at most one account (C11) -/

theorem adds_append (xs ys : List Event) : adds (xs ++ ys) = adds xs + adds ys := by
  induction xs with
  | nil => simp [adds]
  | cons e rest ih => cases e <;> simp [adds, ih]; omega

theorem tame_of_same {α : Type} {m : JS α} (k : Nat)
    (h : ∀ w, (m w).world.trace = w.trace ∧ (m w).world.bindings = w.bindings
      ∧ (m w).world.pending = w.pending) : Tame k m :=
  fun w => ⟨[], [], by rw [List.append_nil]; exact (h w).1, Nat.zero_le _, (h w).2.1,
    by rw [List.append_nil]; exact (h w).2.2, fun _ ht => nomatch ht⟩

theorem tame_mono {α : Type} {m : JS α} {k k2 : Nat} (hk : k ≤ k2) (h : Tame k m) :
    Tame k2 m := by
  intro w
  obtain ⟨new, q, h1, h2, h3, h4, h5⟩ := h w
  exact ⟨new, q, h1, Nat.le_trans h2 hk, h3, h4, h5⟩

theorem tame_pure {α : Type} (a : α) : Tame 0 (pure a : JS α) :=
  tame_of_same 0 (fun _ => ⟨rfl, rfl, rfl⟩)

theorem tame_throwJs {α : Type} (e : JsError) : Tame 0 (throwJs e : JS α) :=
  tame_of_same 0 (fun _ => ⟨rfl, rfl, rfl⟩)

theorem tame_modifyDom (f : Dom → Dom) : Tame 0 (modifyDom f) :=
  tame_of_same 0 (fun _ => ⟨rfl, rfl, rfl⟩)

theorem tame_platformRead {α : Type} (r : Except JsError α) : Tame 0 (platformRead r) :=
  tame_of_same 0 (fun w => by cases r <;> exact ⟨rfl, rfl, rfl⟩)

theorem tame_addEventListener (name : String) (c : Callback) :
    Tame 0 (Model.addEventListener name c) :=
  tame_of_same 0 (fun _ => ⟨rfl, rfl, rfl⟩)

theorem tame_isInfoViewOpened : Tame 0 Ui.isInfoViewOpened :=
  tame_of_same 0 (fun w => by
    simp only [Ui.isInfoViewOpened]
    cases w.activePage <;> exact ⟨rfl, rfl, rfl⟩)

theorem tame_emit (ev : Event) : Tame (adds [ev]) (emit ev) :=
  fun _ => ⟨[ev], [], rfl, Nat.le_refl _, rfl, by simp, by simp⟩

theorem tame_changePage (s : String) : Tame 0 (Ui.changePage s) :=
  fun _ => ⟨[Event.changePage s], [], rfl, Nat.le_refl _, rfl, by simp, by simp⟩

theorem tame_platformCall {α : Type} (ev : Event) (r : Except JsError α) :
    Tame (adds [ev]) (platformCall ev r) := by
  intro w
  refine ⟨[ev], [], ?_, Nat.le_refl _, ?_, ?_, by simp⟩ <;> cases r <;> simp

theorem tame_enqueue (t : Task) (h : t.isInit = false) : Tame 0 (enqueue t) :=
  fun _ => ⟨[], [t], by simp, by simp [adds], rfl, rfl, by simpa using h⟩

theorem tame_bind {α β : Type} {k1 k2 : Nat} {m : JS α} {f : α → JS β}
    (hm : Tame k1 m) (hf : ∀ a, Tame k2 (f a)) : Tame (k1 + k2) (m >>= f) := by
  intro w
  obtain ⟨new1, q1, h1, h2, h3, h4, h5⟩ := hm w
  show ∃ new q, (JS.bind m f w).world.trace = _ ∧ _ ∧ (JS.bind m f w).world.bindings = _
    ∧ (JS.bind m f w).world.pending = _ ∧ _
  simp only [JS.bind]
  cases hmw : m w with
  | ok a w1 =>
    rw [hmw] at h1 h3 h4
    simp only [Outcome.world] at h1 h3 h4
    obtain ⟨new2, q2, g1, g2, g3, g4, g5⟩ := hf a w1
    refine ⟨new1 ++ new2, q1 ++ q2, ?_, ?_, ?_, ?_, ?_⟩
    · simp only [g1, h1, List.append_assoc]
    · rw [adds_append]; omega
    · rw [g3, h3]
    · simp only [g4, h4, List.append_assoc]
    · intro t ht
      rcases List.mem_append.mp ht with ht | ht
      · exact h5 t ht
      · exact g5 t ht
  | throw e w1 =>
    rw [hmw] at h1 h3 h4
    exact ⟨new1, q1, h1, by omega, h3, h4, h5⟩

theorem tame_tryCatch {α : Type} {k1 k2 : Nat} {m : JS α} {h : JsError → JS α}
    (hm : Tame k1 m) (hh : ∀ e, Tame k2 (h e)) : Tame (k1 + k2) (tryCatch m h) := by
  intro w
  obtain ⟨new1, q1, h1, h2, h3, h4, h5⟩ := hm w
  show ∃ new q, (tryCatch m h w).world.trace = _ ∧ _ ∧ (tryCatch m h w).world.bindings = _
    ∧ (tryCatch m h w).world.pending = _ ∧ _
  simp only [tryCatch]
  cases hmw : m w with
  | ok a w1 =>
    rw [hmw] at h1 h3 h4
    exact ⟨new1, q1, h1, by omega, h3, h4, h5⟩
  | throw e w1 =>
    rw [hmw] at h1 h3 h4
    simp only [Outcome.world] at h1 h3 h4
    obtain ⟨new2, q2, g1, g2, g3, g4, g5⟩ := hh e w1
    refine ⟨new1 ++ new2, q1 ++ q2, ?_, ?_, ?_, ?_, ?_⟩
    · simp only [g1, h1, List.append_assoc]
    · rw [adds_append]; omega
    · rw [g3, h3]
    · simp only [g4, h4, List.append_assoc]
    · intro t ht
      rcases List.mem_append.mp ht with ht | ht
      · exact h5 t ht
      · exact g5 t ht

theorem tame_seq {α β : Type} {m : JS α} {f : α → JS β}
    (hm : Tame 0 m) (hf : ∀ a, Tame 0 (f a)) : Tame 0 (m >>= f) :=
  tame_bind hm hf

theorem tame_try {α : Type} {m : JS α} {h : JsError → JS α}
    (hm : Tame 0 m) (hh : ∀ e, Tame 0 (h e)) : Tame 0 (tryCatch m h) :=
  tame_tryCatch hm hh

theorem tame_showError (v : ErrArg) : Tame 0 (Ui.showError v) :=
  tame_seq (tame_emit _) (fun _ => tame_emit _)

theorem tame_callErr (cb : ErrCb) (v : ErrArg) : Tame 0 (Model.callErr cb v) := by
  cases cb
  · exact tame_showError v
  · exact tame_throwJs _

theorem tame_getApplicationId (P : Platform) (cb : ErrCb) :
    Tame 0 (Model.getApplicationId P cb) :=
  tame_try (tame_seq (tame_platformRead _) (fun _ => tame_pure _))
    (fun _ => tame_seq (tame_callErr _ _) (fun _ => tame_pure _))

theorem tame_getAccountProvider (P : Platform) (cb : ErrCb) :
    Tame 0 (Model.getAccountProvider P cb) :=
  tame_try (tame_seq (tame_getApplicationId P cb) (fun _ => tame_platformRead _))
    (fun _ => tame_seq (tame_callErr _ _) (fun _ => tame_pure _))

theorem tame_setEach (P : Platform) (a : Account) (data ext : List (String × String)) :
    Tame 0 (Model.setEach P a data ext) := by
  induction ext with
  | nil => exact tame_pure ()
  | cons kv rest ih =>
    obtain ⟨k, v⟩ := kv
    unfold Model.setEach
    split
    · exact tame_throwJs _
    · exact tame_seq (tame_platformCall _ _) (fun _ => ih)

theorem tame_setAll (P : Platform) (a : Account) (ext : List (String × String)) :
    Tame 0 (Model.setAll P a ext) :=
  tame_setEach P a ext ext

theorem tame_addAccount (P : Platform) (u : String) (d : List (String × String))
    (cb : ErrCb) : Tame 1 (Model.addAccount P u d cb) := by
  have h : Tame (0 + (0 + (0 + (1 + 0)))) (Model.addAccount P u d cb) :=
    tame_bind (tame_emit _) (fun _ =>
      tame_bind (tame_getAccountProvider P cb) (fun _ =>
        tame_bind (tame_platformRead _) (fun account =>
          tame_tryCatch
            (@tame_bind _ _ 1 0 _ _ (tame_platformCall (Event.add account) _)
              (fun _ => tame_setAll P _ d))
            (fun _ => tame_callErr _ _))))
  exact tame_mono (by omega) h

theorem tame_removeAccount (P : Platform) (i : Option Nat) (cb : ErrCb) :
    Tame 0 (Model.removeAccount P i cb) :=
  tame_seq (tame_emit _)
    (fun _ => tame_try (tame_platformCall _ _) (fun _ => tame_callErr _ _))

theorem tame_getCurrentAccount (P : Platform) (cb : AccountsCb) (e : ErrCb)
    (h : ∀ accounts, (Task.accountsReady cb accounts).isInit = false) :
    Tame 0 (Model.getCurrentAccount P cb e) := by
  unfold Model.getCurrentAccount
  refine tame_seq (tame_emit _) (fun _ => tame_try ?_ (fun _ => tame_callErr _ _))
  refine tame_seq (tame_getApplicationId P e) (fun i => tame_seq (tame_emit _) (fun _ => ?_))
  cases P.getAccounts i with
  | throws e1 => exact tame_throwJs _
  | fails e1 => exact tame_enqueue _ rfl
  | succeeds accounts => exact tame_enqueue _ (h accounts)

theorem tame_getAccountData (P : Platform) (v : Value) (cb : DataCb) (e : ErrCb) :
    Tame 0 (Model.getAccountData P v cb e) := by
  unfold Model.getAccountData
  refine tame_seq (tame_emit _) (fun _ => ?_)
  cases v with
  | undefined => exact tame_throwJs _
  | accountId n => exact tame_throwJs _
  | account a =>
    refine tame_seq (tame_emit _) (fun _ => ?_)
    cases P.getExtendedData a with
    | throws e1 => exact tame_throwJs _
    | fails e1 => exact tame_enqueue _ rfl
    | succeeds d => exact tame_enqueue _ rfl

theorem tame_onSuccess (P : Platform) (data : Patch) (onError : ErrCb)
    (accounts : List Account) : Tame 0 (Model.onSuccess P data onError accounts) := by
  unfold Model.onSuccess
  have tail : ∀ account : Option Account, Tame 0 (tryCatch
      (platformCall
        (Event.update (match account with
          | some a => Value.account a
          | none => Value.undefined))
        (P.update (match account with
          | some a => Value.account a
          | none => Value.undefined)))
      (fun error => Model.callErr onError (ErrArg.text error.message))) :=
    fun _ => tame_try (tame_platformCall _ _) (fun _ => tame_callErr _ _)
  refine tame_seq ?_ (fun account => ?_)
  · cases data.user with
    | none => exact tame_pure _
    | some user =>
      simp only
      split
      · cases accounts.head? with
        | none => exact tame_throwJs _
        | some a => exact tame_pure _
      · exact tame_pure _
  · simp only
    cases data.extData with
    | none => exact tame_seq (tame_pure _) (fun _ => tail account)
    | some ext =>
      cases account with
      | none =>
        simp only
        split
        · exact tame_seq (tame_pure _) (fun _ => tail none)
        · exact tame_seq (tame_throwJs _) (fun _ => tail none)
      | some a => exact tame_seq (tame_setAll P a ext) (fun _ => tail (some a))

theorem tame_updateAccountData (P : Platform) (data : Patch) (e : ErrCb) :
    Tame 0 (Model.updateAccountData P data e) :=
  tame_seq (tame_emit _) (fun _ => tame_getCurrentAccount P _ e (fun _ => rfl))

theorem tame_exit (P : Platform) : Tame 0 (App.exit P) :=
  tame_try (tame_platformCall _ _) (fun _ => tame_showError _)

theorem tame_remove (P : Platform) (accounts : List Account) :
    Tame 0 (App.remove P accounts) := by
  unfold App.remove
  cases accounts.head? with
  | none => exact tame_pure _
  | some a => exact tame_removeAccount P _ _

theorem tame_showAddView : Tame 0 Ui.showAddView :=
  tame_seq (tame_modifyDom _) (fun _ => tame_changePage _)

theorem tame_showEditView (d : Ui.AccountData) : Tame 0 (Ui.showEditView d) := by
  unfold Ui.showEditView
  cases d.data.head? with
  | none => exact tame_throwJs _
  | some first =>
    simp only
    split
    · exact tame_seq (tame_modifyDom _) (fun _ => tame_changePage _)
    · exact tame_seq (tame_pure _) (fun _ => tame_changePage _)

theorem tame_showInfoView (d : Ui.AccountData) : Tame 0 (Ui.showInfoView d) :=
  tame_seq (tame_modifyDom _) (fun _ =>
    tame_seq (tame_modifyDom _) (fun _ => tame_changePage _))

theorem tame_onUpdated (P : Platform) (v : Value) : Tame 0 (App.onUpdated P v) := by
  unfold App.onUpdated
  refine tame_seq tame_isInfoViewOpened (fun opened => ?_)
  split
  · exact tame_pure _
  · exact tame_getAccountData P _ _ _

theorem tame_invoke (P : Platform) (c : Callback) (v : Value) : Tame 0 (invoke P c v) := by
  cases c
  · exact tame_exit P
  · exact tame_onUpdated P v
  · exact tame_showAddView

theorem tame_runCalls (P : Platform) (calls : List (Callback × Value)) :
    Tame 0 (runCalls P calls) := by
  induction calls with
  | nil => exact tame_pure ()
  | cons c rest ih =>
    obtain ⟨cb, v⟩ := c
    exact tame_seq (tame_invoke P cb v) (fun _ => ih)

theorem tame_runHandler (P : Platform) (answer : Bool) (h : UiHandler) :
    Tame (addHandlers [h]) (runHandler P answer h) := by
  cases h with
  | onTizenHWKey =>
    show Tame 0 (Ui.onTizenHWKey P "")
    unfold Ui.onTizenHWKey
    split
    · exact tame_exit P
    · exact tame_pure _
  | onAddButtonClick =>
    show Tame 1 (Ui.onAddButtonClick P)
    intro w
    simp only [Ui.onAddButtonClick]
    split
    · exact tame_mono (Nat.zero_le 1) (tame_emit (Event.alert Ui.validationText)) w
    · exact tame_addAccount P _ _ _ w
  | onRemoveButtonClick =>
    show Tame 0 (Ui.onRemoveButtonClick P answer)
    unfold Ui.onRemoveButtonClick
    refine tame_seq (tame_emit _) (fun _ => ?_)
    split
    · exact tame_getCurrentAccount P _ _ (fun _ => rfl)
    · exact tame_pure _
  | onUpdateButtonClick =>
    show Tame 0 (Ui.onUpdateButtonClick P)
    intro w
    exact tame_updateAccountData P _ _ w

theorem tame_runTask (P : Platform) (t : Task) (h : t.isInit = false) :
    Tame 0 (runTask P t) := by
  cases t with
  | accountsReady cb accounts =>
    cases cb with
    | remove => exact tame_remove P accounts
    | update data onError => exact tame_onSuccess P data onError accounts
    | initConfigure => simp [Task.isInit] at h
    | initDefault => simp [Task.isInit] at h
  | extDataReady a cb d =>
    cases cb with
    | showEditView => exact tame_showEditView _
    | showInfoView => exact tame_showInfoView _
  | failed cb e =>
    cases cb with
    | showError => exact tame_showError _
    | undefined => exact tame_pure _

theorem calm_mono {k k2 : Nat} {f : World → World} (hk : k ≤ k2) (h : Calm k f) :
    Calm k2 f := by
  intro w hw
  obtain ⟨new, h1, h2, h3, h4⟩ := h w hw
  exact ⟨new, h1, Nat.le_trans h2 hk, h3, h4⟩

theorem calm_id : Calm 0 (fun w => w) :=
  fun w hw => ⟨[], by simp, Nat.zero_le _, rfl, hw⟩

theorem calm_comp {k1 k2 : Nat} {f g : World → World} (hf : Calm k1 f) (hg : Calm k2 g) :
    Calm (k1 + k2) (fun w => g (f w)) := by
  intro w hw
  obtain ⟨new1, h1, h2, h3, h4⟩ := hf w hw
  obtain ⟨new2, g1, g2, g3, g4⟩ := hg (f w) h4
  refine ⟨new1 ++ new2, ?_, ?_, ?_, g4⟩
  · simp only [g1, h1, List.append_assoc]
  · rw [adds_append]; omega
  · rw [g3, h3]

theorem calm_topLevel {k : Nat} {m : JS Unit} (h : Tame k m) : Calm k (topLevel m) := by
  intro w hw
  obtain ⟨new, q, h1, h2, h3, h4, h5⟩ := h w
  have hq : ∀ t ∈ w.pending ++ q, t.isInit = false := by
    intro t ht
    rcases List.mem_append.mp ht with ht | ht
    · exact hw t ht
    · exact h5 t ht
  simp only [topLevel]
  cases hmw : m w with
  | ok a w1 =>
    rw [hmw] at h1 h3 h4
    simp only [Outcome.world] at h1 h3 h4
    exact ⟨new, h1, h2, h3, by rw [h4]; exact hq⟩
  | throw e w1 =>
    rw [hmw] at h1 h3 h4
    simp only [Outcome.world] at h1 h3 h4
    refine ⟨new ++ [Event.uncaught e], ?_, ?_, h3, by rw [h4]; exact hq⟩
    · simp only [h1, List.append_assoc]
    · rw [adds_append]; simpa [adds] using h2

theorem calm_drain (P : Platform) : ∀ fuel : Nat, Calm 0 (drain P fuel) := by
  intro fuel
  induction fuel with
  | zero => exact calm_id
  | succ fuel ih =>
    intro w hw
    cases hp : w.pending with
    | nil =>
      have hd : drain P (fuel + 1) w = w := by simp only [drain, hp]
      rw [hd]
      exact calm_id w hw
    | cons t rest =>
      simp only [drain, hp]
      have ht : t.isInit = false := hw t (by simp [hp])
      have hrest : ∀ x ∈ ({ w with pending := rest } : World).pending, x.isInit = false :=
        fun x hx => hw x (by simp [hp]; exact Or.inr hx)
      obtain ⟨new1, h1, h2, h3, h4⟩ :=
        calm_topLevel (tame_runTask P t ht) { w with pending := rest } hrest
      obtain ⟨new2, g1, g2, g3, g4⟩ := ih _ h4
      refine ⟨new1 ++ new2, ?_, ?_, ?_, g4⟩
      · rw [g1, h1]; simp only [List.append_assoc]
      · rw [adds_append]; omega
      · rw [g3, h3]

theorem calm_settle (P : Platform) : Calm 0 (settle P) :=
  fun w hw => calm_drain P _ w hw

theorem calm_handle (P : Platform) {k : Nat} {m : JS Unit} (h : Tame k m) :
    Calm k (handle P m) := by
  have := calm_comp (calm_topLevel h) (calm_settle P)
  exact calm_mono (by omega) this

theorem calm_dispatchAll (P : Platform) (answer : Bool) (hs : List UiHandler) :
    Calm (addHandlers hs) (dispatchAll P answer hs) := by
  induction hs with
  | nil => exact calm_id
  | cons h rest ih =>
    have h1 := calm_comp (calm_topLevel (tame_runHandler P answer h)) ih
    refine calm_mono ?_ h1
    cases h <;> simp only [addHandlers] <;> omega

theorem typeInto_frame (input text : String) (w : World) :
    (typeInto input text w).trace = w.trace
    ∧ (typeInto input text w).bindings = w.bindings
    ∧ (typeInto input text w).pending = w.pending := by
  unfold typeInto
  split_ifs <;> exact ⟨rfl, rfl, rfl⟩

/-- An action only adds to the trace, with at most as many `tizen.account.add`
calls as add-button handlers are attached to the clicked button; it attaches no
handler and queues no callback of `app.init`. -/
theorem act_calm (P : Platform) (a : Action) (w : World)
    (hw : ∀ t ∈ w.pending, t.isInit = false) :
    ∃ new, (act P a w).trace = w.trace ++ new
      ∧ adds new ≤ (match a with
          | Action.click button _ => addHandlers (handlersFor w.bindings button)
          | _ => 0)
      ∧ (act P a w).bindings = w.bindings
      ∧ ∀ t ∈ (act P a w).pending, t.isInit = false := by
  cases a with
  | type input text =>
    obtain ⟨h1, h2, h3⟩ := typeInto_frame input text w
    exact ⟨[], by rw [List.append_nil]; exact h1, Nat.zero_le _, h2,
      by rw [show (act P (Action.type input text) w).pending = w.pending from h3]; exact hw⟩
  | click button answer =>
    simp only [act, click]
    split
    · exact calm_comp (calm_dispatchAll P answer _) (calm_settle P) w hw
    · exact ⟨[], by simp, Nat.zero_le _, rfl, hw⟩
  | notification n =>
    simp only [act, notify]
    split
    · exact calm_handle P (m := fun w1 => runCalls P (accountListener w1.eventListeners n) w1)
        (fun w1 => tame_runCalls P _ w1) w hw
    · exact ⟨[], by simp, Nat.zero_le _, rfl, hw⟩

theorem apply_length (P : Platform) (s : Store) (ev : Event) :
    (Store.apply P s ev).length ≤ s.length + adds [ev] := by
  cases ev with
  | add a =>
    simp only [Store.apply, adds]
    cases P.add a <;> simp
  | setExtendedData a key value =>
    simp only [Store.apply, adds]
    cases P.setExtendedData a key value <;> simp
  | remove i =>
    simp only [Store.apply, adds]
    cases P.remove i
    · simp
    · exact Nat.le_trans (List.length_filter_le _ _) (Nat.le_add_right _ _)
  | update v =>
    cases v with
    | account a =>
      simp only [Store.apply, adds]
      cases P.update (Value.account a) <;> simp
    | undefined => simp [Store.apply, adds]
    | accountId n => simp [Store.apply, adds]
  | _ => simp [Store.apply, adds]

theorem foldl_apply_length (P : Platform) (evs : List Event) :
    ∀ s : Store, (evs.foldl (Store.apply P) s).length ≤ s.length + adds evs := by
  induction evs with
  | nil => intro s; simp [adds]
  | cons ev rest ih =>
    intro s
    have h1 := ih (Store.apply P s ev)
    have h2 := apply_length P s ev
    have h3 : adds (ev :: rest) = adds [ev] + adds rest := adds_append [ev] rest
    simp only [List.foldl_cons]
    omega

theorem step_bound (P : Platform) (a : Action) (st : State)
    (hw : ∀ t ∈ st.world.pending, t.isInit = false) :
    (step P a st).store.length
        ≤ st.store.length + (match a with
            | Action.click button _ => addHandlers (handlersFor st.world.bindings button)
            | _ => 0)
    ∧ (step P a st).world.bindings = st.world.bindings
    ∧ ∀ t ∈ (step P a st).world.pending, t.isInit = false := by
  obtain ⟨new, h1, h2, h3, h4⟩ := act_calm P a st.world hw
  refine ⟨?_, h3, h4⟩
  have hd : (act P a st.world).trace.drop st.world.trace.length = new := by
    rw [h1]; exact List.drop_left _ _
  simp only [step, hd]
  exact Nat.le_trans (foldl_apply_length P new st.store) (Nat.add_le_add_left h2 _)

/-- Along a sequence of steps the store grows by at most `c` accounts per click
on the save button, `c` bounding the add-button handlers attached to it. -/
theorem run_bound (c : Nat) (steps : List (Platform × Action)) :
    ∀ st : State, (∀ t ∈ st.world.pending, t.isInit = false) →
      (∀ b, addHandlers (handlersFor st.world.bindings b)
        ≤ if b = "save-button" then c else 0) →
      (run steps st).store.length ≤ st.store.length + c * addClicks steps := by
  induction steps with
  | nil => intro st _ _; simp [run, addClicks]
  | cons pa rest ih =>
    intro st hw hb
    obtain ⟨P, a⟩ := pa
    obtain ⟨s1, s2, s3⟩ := step_bound P a st hw
    have h := ih (step P a st) s3 (by rw [s2]; exact hb)
    simp only [run]
    cases a with
    | type input text =>
      simp only [addClicks] at s1 ⊢
      omega
    | notification n =>
      simp only [addClicks] at s1 ⊢
      omega
    | click button answer =>
      have hbb := hb button
      simp only [addClicks] at s1 ⊢
      split_ifs at hbb ⊢ with hbs
      · rw [Nat.mul_add]; omega
      · rw [Nat.mul_add]; simp only [Nat.zero_add, Nat.mul_zero]; omega

@[simp]
theorem adds_report (e : JsError) : adds (report e) = 0 := rfl

@[simp]
theorem adds_applicationIdReport (P : Platform) : adds P.applicationIdReport = 0 := by
  cases h : P.appId <;> simp [h, Platform.applicationIdReport, adds]

@[simp]
theorem adds_operationReport (P : Platform) : adds P.operationReport = 0 := by
  cases h : P.operation <;> simp [h, Platform.operationReport, adds]

@[simp]
theorem adds_listenerReport (P : Platform) : adds P.listenerReport = 0 := by
  cases h : P.addAccountListener <;> simp [h, Platform.listenerReport, adds]

/-- The launch makes no `tizen.account.add` call and attaches the handlers of at
most one view. -/
theorem launch_shape (P : Platform) (page : Option String) :
    adds (launch P (World.initial page)).trace = 0
    ∧ ((launch P (World.initial page)).bindings = []
      ∨ (launch P (World.initial page)).bindings = addViewBindings
      ∨ (launch P (World.initial page)).bindings = configViewBindings
      ∨ (launch P (World.initial page)).bindings = infoViewBindings)
    ∧ (P.launchOperation = some operationConfigure →
        (launch P (World.initial page)).bindings = []
        ∨ (launch P (World.initial page)).bindings = configViewBindings) := by
  by_cases ha : P.launchOperation = some operationAdd
  · have hc : P.launchOperation ≠ some operationConfigure := by
      rw [ha]; simp [operationAdd, operationConfigure]
    simp [World.initial, ha, hc, adds, adds_append, addViewBindings,
      operationConfigure_ne_operationAdd.symm]
  · by_cases hc : P.launchOperation = some operationConfigure
    · rcases hg : P.getAccounts P.applicationId with e | e | accounts
      · simp [World.initial, hc, hg, adds, adds_append, operationConfigure_ne_operationAdd]
      · simp [World.initial, hc, hg, adds, adds_append, operationConfigure_ne_operationAdd]
      · cases accounts with
        | nil =>
          simp [World.initial, hc, hg, adds, adds_append, operationConfigure_ne_operationAdd]
        | cons a rest =>
          rcases hd : P.getExtendedData a with e | e | d
          · simp [World.initial, hc, hg, hd, adds, adds_append,
              operationConfigure_ne_operationAdd]
          · simp [World.initial, hc, hg, hd, adds, adds_append,
              operationConfigure_ne_operationAdd, configViewBindings]
          · cases d with
            | nil =>
              simp [World.initial, hc, hg, hd, adds, adds_append,
                operationConfigure_ne_operationAdd, configViewBindings]
            | cons kv more =>
              by_cases hk : kv.key = "data" <;>
                simp [World.initial, hc, hg, hd, hk, adds, adds_append,
                  operationConfigure_ne_operationAdd, configViewBindings]
    · rcases hg : P.getAccounts P.applicationId with e | e | accounts
      · simp [World.initial, ha, hc, hg, adds, adds_append]
      · simp [World.initial, ha, hc, hg, adds, adds_append]
      · cases accounts with
        | nil =>
          simp [World.initial, ha, hc, hg, adds, adds_append, infoViewBindings]
        | cons a rest =>
          rcases hd : P.getExtendedData a with e | e | d <;>
            simp [World.initial, ha, hc, hg, hd, adds, adds_append, infoViewBindings]

theorem addHandlers_cons_le (h : UiHandler) (rest : List UiHandler) :
    addHandlers rest ≤ addHandlers (h :: rest) := by
  cases h <;> simp [addHandlers]

theorem addHandlers_handlersFor_le (bs : List DomBinding) (b : String) :
    addHandlers (handlersFor bs b) ≤ addHandlers (bs.map fun x => x.handler) := by
  induction bs with
  | nil => simp [handlersFor]
  | cons x rest ih =>
    simp only [handlersFor, List.filter_cons, List.map_cons] at ih ⊢
    split
    · simp only [List.map_cons]
      cases x.handler <;> simp only [addHandlers] <;> omega
    · exact Nat.le_trans ih (addHandlers_cons_le _ _)

theorem addHandlers_handlersFor_other (bs : List DomBinding) (b : String)
    (hb : b ≠ "save-button")
    (hs : ∀ x ∈ bs, x.handler = UiHandler.onAddButtonClick → x.target = "save-button") :
    addHandlers (handlersFor bs b) = 0 := by
  induction bs with
  | nil => simp [handlersFor, addHandlers]
  | cons x rest ih =>
    have ih2 := ih (fun y hy => hs y (List.mem_cons_of_mem _ hy))
    simp only [handlersFor, List.filter_cons] at ih2 ⊢
    split
    · rename_i hx
      have hx1 : x.target = b := by simpa using (of_decide_eq_true hx).1
      have hne : x.handler ≠ UiHandler.onAddButtonClick := by
        intro hh
        exact hb (hx1 ▸ hs x (List.mem_cons_self _ _) hh)
      simp only [List.map_cons]
      cases hxh : x.handler <;> simp_all [addHandlers]
    · exact ih2

/-- After the launch at most one add-button handler is attached, to the save
button; after a configure launch none is. -/
theorem launch_addHandlers (P : Platform) (page : Option String) (b : String) :
    addHandlers (handlersFor (launch P (World.initial page)).bindings b)
        ≤ (if b = "save-button" then 1 else 0)
    ∧ (P.launchOperation = some operationConfigure →
        addHandlers (handlersFor (launch P (World.initial page)).bindings b) = 0) := by
  obtain ⟨-, hshape, hcfg⟩ := launch_shape P page
  have hcount : addHandlers ((launch P (World.initial page)).bindings.map fun x => x.handler) ≤ 1 := by
    rcases hshape with h | h | h | h <;> rw [h] <;> decide
  have hsave : ∀ x ∈ (launch P (World.initial page)).bindings,
      x.handler = UiHandler.onAddButtonClick → x.target = "save-button" := by
    rcases hshape with h | h | h | h <;> rw [h] <;> decide
  constructor
  · by_cases hb : b = "save-button"
    · rw [if_pos hb]
      exact Nat.le_trans (addHandlers_handlersFor_le _ _) hcount
    · rw [if_neg hb]
      exact Nat.le_of_eq (addHandlers_handlersFor_other _ _ hb hsave)
  · intro hc
    have h0 : addHandlers ((launch P (World.initial page)).bindings.map fun x => x.handler) = 0 := by
      rcases hcfg hc with h | h <;> rw [h] <;> decide
    exact Nat.le_zero.mp (h0 ▸ addHandlers_handlersFor_le _ _)

/-- Whatever the platform answers, also a platform that would accept a second
account: start from any launch and a store of `s0`, and let any sequence of
typing, button clicks on the shown view and notifications follow.  The store
then holds at most as many accounts as `s0` plus the number of clicks on the add
view's save button; after a configure launch, where no handler is attached to
that button, it never grows. -/
theorem store_grows_by_add_clicks (P0 : Platform) (page : Option String) (s0 : Store)
    (steps : List (Platform × Action)) :
    (run steps (start P0 page s0)).store.length ≤ s0.length + addClicks steps
    ∧ (s0.length ≤ 1 → addClicks steps = 0 →
        (run steps (start P0 page s0)).store.length ≤ 1)
    ∧ (s0 = [] → addClicks steps ≤ 1 →
        (run steps (start P0 page s0)).store.length ≤ 1)
    ∧ (P0.launchOperation = some operationConfigure →
        (run steps (start P0 page s0)).store.length ≤ s0.length
        ∧ (s0.length ≤ 1 → (run steps (start P0 page s0)).store.length ≤ 1))
    ∧ (∀ op i, (Platform.ofStore op (run steps (start P0 page s0)).store).getAccounts i
        = Async.succeeds ((run steps (start P0 page s0)).store.map Stored.account)) := by
  have hstart : (start P0 page s0).store.length ≤ s0.length := by
    have h := foldl_apply_length P0 (launch P0 (World.initial page)).trace s0
    rw [(launch_shape P0 page).1] at h
    exact h
  have hpend : ∀ t ∈ (start P0 page s0).world.pending, t.isInit = false := by
    intro t ht
    have hp : (start P0 page s0).world.pending = [] := settle_pending P0 _
    rw [hp] at ht
    cases ht
  have h1 := run_bound 1 steps (start P0 page s0) hpend
    (fun b => (launch_addHandlers P0 page b).1)
  have hmain : (run steps (start P0 page s0)).store.length ≤ s0.length + addClicks steps := by
    omega
  refine ⟨hmain, fun hs hc => by omega, fun hs hc => by subst hs; simp at hmain; omega,
    fun hcfg => ?_, fun _ _ => rfl⟩
  have h0 := run_bound 0 steps (start P0 page s0) hpend
    (fun b => by
      have hb : addHandlers (handlersFor (start P0 page s0).world.bindings b) = 0 :=
        (launch_addHandlers P0 page b).2 hcfg
      rw [hb]
      split <;> exact Nat.le_refl 0)
  exact ⟨by omega, fun hs => by omega⟩

/-- Default launch with one account stored, then the remove button, confirmed,
and the `removed` notification. -/
theorem store_grows_by_add_clicks_witness :
    [bobStored].length ≤ 1
    ∧ addClicks removeSteps = 0
    ∧ (run removeSteps (start (Platform.ofStore none [bobStored]) none [bobStored])).store.length
        ≤ 1 :=
  ⟨by decide, by decide,
    (store_grows_by_add_clicks (Platform.ofStore none [bobStored]) none [bobStored]
      removeSteps).2.1 (by decide) (by decide)⟩

/-- The reliable platform in front of a store guards that store. -/
theorem ofStore_guards (op : Option String) (s : Store) :
    (Platform.ofStore op s).Guards s := by
  intro h a
  cases s with
  | nil => exact absurd rfl h
  | cons x rest => exact ⟨accountExists, rfl⟩

theorem apply_length_refused (P : Platform) (h : ∀ a, ∃ e, P.add a = .error e)
    (s : Store) (ev : Event) : (Store.apply P s ev).length ≤ s.length := by
  cases ev with
  | add a =>
    obtain ⟨e, he⟩ := h a
    simp [Store.apply, he]
  | setExtendedData a key value =>
    simp only [Store.apply]
    cases P.setExtendedData a key value <;> simp
  | remove i =>
    simp only [Store.apply]
    cases P.remove i
    · simp
    · exact List.length_filter_le _ _
  | update v =>
    cases v with
    | account a =>
      simp only [Store.apply]
      cases P.update (Value.account a) <;> simp
    | undefined => simp [Store.apply]
    | accountId n => simp [Store.apply]
  | _ => simp [Store.apply]

theorem foldl_apply_refused (P : Platform) (h : ∀ a, ∃ e, P.add a = .error e)
    (evs : List Event) :
    ∀ s : Store, (evs.foldl (Store.apply P) s).length ≤ s.length := by
  induction evs with
  | nil => intro s; simp
  | cons ev rest ih =>
    intro s
    simp only [List.foldl_cons]
    exact Nat.le_trans (ih _) (apply_length_refused P h s ev)

/-- A step keeps a store of at most one account: from the empty store a click
makes at most one `add` call, and a store that holds an account is guarded. -/
theorem step_guarded (P : Platform) (a : Action) (st : State)
    (hw : ∀ t ∈ st.world.pending, t.isInit = false)
    (hb : ∀ b, addHandlers (handlersFor st.world.bindings b)
      ≤ if b = "save-button" then 1 else 0)
    (hs : st.store.length ≤ 1) (hg : P.Guards st.store) :
    (step P a st).store.length ≤ 1 := by
  by_cases he : st.store = []
  · have h1 := (step_bound P a st hw).1
    rw [he] at h1
    simp only [List.length_nil, Nat.zero_add] at h1
    cases a with
    | type input text => exact Nat.le_trans h1 (Nat.zero_le 1)
    | notification n => exact Nat.le_trans h1 (Nat.zero_le 1)
    | click button answer =>
      have hbb := hb button
      simp only at h1
      split_ifs at hbb <;> omega
  · exact Nat.le_trans (foldl_apply_refused P (hg he) _ st.store) hs

theorem run_guarded (steps : List (Platform × Action)) :
    ∀ st : State, (∀ t ∈ st.world.pending, t.isInit = false) →
      (∀ b, addHandlers (handlersFor st.world.bindings b)
        ≤ if b = "save-button" then 1 else 0) →
      st.store.length ≤ 1 → Coherent steps st →
      (run steps st).store.length ≤ 1 := by
  induction steps with
  | nil => intro st _ _ hs _; exact hs
  | cons pa rest ih =>
    intro st hw hb hs hc
    obtain ⟨P, a⟩ := pa
    obtain ⟨hg, hrest⟩ := hc
    obtain ⟨-, s2, s3⟩ := step_bound P a st hw
    exact ih (step P a st) s3 (by rw [s2]; exact hb)
      (step_guarded P a st hw hb hs hg) hrest

theorem runOn_guarded (op : Option String) (actions : List Action) :
    ∀ st : State, (∀ t ∈ st.world.pending, t.isInit = false) →
      (∀ b, addHandlers (handlersFor st.world.bindings b)
        ≤ if b = "save-button" then 1 else 0) →
      st.store.length ≤ 1 → (runOn op actions st).store.length ≤ 1 := by
  induction actions with
  | nil => intro st _ _ hs; exact hs
  | cons a rest ih =>
    intro st hw hb hs
    obtain ⟨-, s2, s3⟩ := step_bound (Platform.ofStore op st.store) a st hw
    exact ih (step (Platform.ofStore op st.store) a st) s3 (by rw [s2]; exact hb)
      (step_guarded _ a st hw hb hs (ofStore_guards op st.store))

theorem start_ready (P0 : Platform) (page : Option String) (s0 : Store) :
    (start P0 page s0).store.length ≤ s0.length
    ∧ (∀ t ∈ (start P0 page s0).world.pending, t.isInit = false)
    ∧ (∀ b, addHandlers (handlersFor (start P0 page s0).world.bindings b)
        ≤ if b = "save-button" then 1 else 0) := by
  refine ⟨?_, ?_, fun b => (launch_addHandlers P0 page b).1⟩
  · have h := foldl_apply_length P0 (launch P0 (World.initial page)).trace s0
    rw [(launch_shape P0 page).1] at h
    exact h
  · intro t ht
    have hp : (start P0 page s0).world.pending = [] := settle_pending P0 _
    rw [hp] at ht
    cases ht

/-- C11.  Start from any launch intent and a store holding at most one account.
On the reliable platform in front of the store, after every sequence of user
actions (typing, clicks on the add, update and remove buttons of the shown
view) and notifications the store still holds at most one account, and the
account query returns at most one result.  More generally the same holds on any
platforms, one per step and answering in any way, as long as each refuses `add`
while the store holds an account. -/
theorem store_holds_at_most_one (page : Option String) (s0 : Store)
    (h0 : s0.length ≤ 1) :
    (∀ (op : Option String) (actions : List Action),
      (runOn op actions (start (Platform.ofStore op s0) page s0)).store.length ≤ 1
      ∧ ∀ i accounts,
          (Platform.ofStore op
            (runOn op actions (start (Platform.ofStore op s0) page s0)).store).getAccounts i
            = Async.succeeds accounts → accounts.length ≤ 1)
    ∧ (∀ (P0 : Platform) (steps : List (Platform × Action)),
        Coherent steps (start P0 page s0) →
        (run steps (start P0 page s0)).store.length ≤ 1) := by
  constructor
  · intro op actions
    obtain ⟨r1, r2, r3⟩ := start_ready (Platform.ofStore op s0) page s0
    have hmain := runOn_guarded op actions _ r2 r3 (Nat.le_trans r1 h0)
    refine ⟨hmain, ?_⟩
    intro i accounts hq
    have hq2 : Async.succeeds
        ((runOn op actions (start (Platform.ofStore op s0) page s0)).store.map Stored.account)
        = Async.succeeds accounts := hq
    cases hq2
    simpa using hmain
  · intro P0 steps hc
    obtain ⟨r1, r2, r3⟩ := start_ready P0 page s0
    exact run_guarded steps _ r2 r3 (Nat.le_trans r1 h0) hc

/-- Default launch on the empty store, then the add form filled in and its save
button clicked twice: the second `add` is refused. -/
theorem store_holds_at_most_one_witness :
    ([] : Store).length ≤ 1
    ∧ (runOn none
        [Action.type "add-account-usr" "eve", Action.type "add-account-data" "y",
          Action.click "save-button" false, Action.click "save-button" false]
        (start (Platform.ofStore none []) none [])).store.length ≤ 1
    ∧ Coherent addTwiceSteps (start (Platform.ofStore none []) none [])
    ∧ (run addTwiceSteps (start (Platform.ofStore none []) none [])).store.length ≤ 1 :=
  have hc : Coherent addTwiceSteps (start (Platform.ofStore none []) none []) :=
    ⟨ofStore_guards none [], ofStore_guards none [], ofStore_guards none [],
      ofStore_guards none [eveStored], trivial⟩
  ⟨by decide,
    ((store_holds_at_most_one none [] (by decide)).1 none _).1,
    hc,
    (store_holds_at_most_one none [] (by decide)).2 (Platform.ofStore none [])
      addTwiceSteps hc⟩

end RVnizer
